import Mathlib

/-!
# Verification of the bubble layout and physics engine

A shallow embedding of `packages/core/src/layout.ts` (and the metric
selector from `packages/core/src/metrics.ts`) of the cryptobubbleview
repository, together with proofs about the claims made by its
specification.

Modelling conventions:
* JavaScript numbers are modelled as real numbers (`ℝ`).
* `Math.random()` is modelled as an explicit stream `rng : ℕ → ℝ` of
  pre-drawn values, consumed with an explicit counter in the same order
  as the source draws them.
* Optional values (TypeScript `x?: number`) are `Option ℝ`; the
  JavaScript `??` operator is `Option.getD`.
* The JavaScript `a || b` idiom on numbers is `jsOr` below (returns `b`
  exactly when `a` is zero; `NaN` does not arise over `ℝ`).
* In-place mutation of the shared node array is modelled by explicit
  state passing: every mutating function takes the node list and
  returns the updated list.  The numeric index of a node in the list
  models JavaScript object identity (the source sorts copies of the
  array of object references and mutates through them; we sort
  `(index, node)` pairs instead and write results back by index).
-/

set_option maxHeartbeats 1600000

/-! ## Data model (`types.ts`) -/

inductive Timeframe
  | h1 | h24 | d7 | d30 | d365
  deriving DecidableEq

inductive SizeMode
  | cap | percent | volume
  deriving DecidableEq

structure CoinMarket where
  id : String
  symbol : String
  name : String
  image : Option String := none
  current_price : Option ℝ := none
  market_cap : Option ℝ := none
  total_volume : Option ℝ := none
  market_cap_rank : Option ℝ := none
  circulating_supply : Option ℝ := none
  total_supply : Option ℝ := none
  price_change_percentage_1h_in_currency : Option ℝ := none
  price_change_percentage_24h : Option ℝ := none
  price_change_percentage_7d_in_currency : Option ℝ := none
  price_change_percentage_30d_in_currency : Option ℝ := none
  price_change_percentage_1y_in_currency : Option ℝ := none

structure Layout2DState where
  x : ℝ
  y : ℝ
  scale : ℝ
  vx : Option ℝ := none
  vy : Option ℝ := none
  seed : Option ℝ := none
  t : Option ℝ := none

structure BubbleNode where
  coin : CoinMarket
  radius : ℝ
  sizeFactor : ℝ
  x : ℝ
  y : ℝ
  z : ℝ
  depth : ℝ
  x2d : ℝ
  y2d : ℝ
  layout2d : Option Layout2DState := none

structure BubbleMetric where
  coin : CoinMarket
  cap : ℝ
  change : ℝ
  volume : ℝ

structure DepthRange where
  min : ℝ
  max : ℝ

structure BuildBubbleOptions where
  timeframe : Option Timeframe := none
  sizeMode : Option SizeMode := none
  depthRange : Option DepthRange := none
  width : Option ℝ := none
  height : Option ℝ := none

/-- A default coin, standing in for out-of-range array accesses that the
source never performs (see `List.getD` uses below). -/
def defaultCoin : CoinMarket :=
  { id := "", symbol := "", name := "" }

def defaultMetric : BubbleMetric :=
  { coin := defaultCoin, cap := 0, change := 0, volume := 0 }

def defaultNode : BubbleNode :=
  { coin := defaultCoin, radius := 0, sizeFactor := 0,
    x := 0, y := 0, z := 0, depth := 0, x2d := 0, y2d := 0 }

/-! ## Metric extractor (`metrics.ts`) -/

def selectChangeByTimeframe (coin : CoinMarket) (timeframe : Timeframe) : ℝ :=
  match timeframe with
  | .h1 => (coin.price_change_percentage_1h_in_currency).getD 0
  | .d7 => (coin.price_change_percentage_7d_in_currency).getD 0
  | .d30 => (coin.price_change_percentage_30d_in_currency).getD 0
  | .d365 => (coin.price_change_percentage_1y_in_currency).getD 0
  | .h24 => (coin.price_change_percentage_24h).getD 0

/-! ## Radius model (`layout.ts`) -/

def MIN_RADIUS : ℝ := 18
def MAX_RADIUS : ℝ := 54

def clamp (value mn mx : ℝ) : ℝ := max mn (min mx value)

/-- JavaScript `a || b` on numbers: yields `b` exactly when `a` is `0`
(the only falsy numeric value that arises over `ℝ`). -/
noncomputable def jsOr (a b : ℝ) : ℝ := if a = 0 then b else a

structure RadiusRanges where
  minCap : ℝ
  maxCap : ℝ
  minChange : ℝ
  maxChange : ℝ
  minVolume : Option ℝ := none
  maxVolume : Option ℝ := none
  mode : Option SizeMode := none

/-- The local `mapArea` closure of `calcRadius`; `anchorScale` is the
default parameter (both call sites pass `1.55` explicitly). -/
noncomputable def mapArea (norm anchorScale : ℝ) : ℝ :=
  let minArea := (MIN_RADIUS * 0.75) ^ (2 : ℕ)
  let maxArea := (MAX_RADIUS * anchorScale) ^ (2 : ℕ)
  minArea + clamp norm 0 1 * (maxArea - minArea)

noncomputable def calcRadius (metric : BubbleMetric) (ranges : RadiusRanges) : ℝ :=
  let mode := ranges.mode.getD SizeMode.cap
  if mode = SizeMode.percent then
    -- simpler proportional sizing for percent change
    let val := metric.change
    let minV := ranges.minChange
    let maxV := ranges.maxChange
    let norm := (val - minV) / jsOr (maxV - minV) 1
    MIN_RADIUS + clamp norm 0 1 * (MAX_RADIUS - MIN_RADIUS)
  else if mode = SizeMode.volume then
    let vol := jsOr metric.volume (jsOr (ranges.minVolume.getD 0) 1)
    let minVol := max 1 (jsOr (ranges.minVolume.getD 0) 1)
    let maxVol := max (minVol + 1) (jsOr (ranges.maxVolume.getD 0) (minVol + 1))
    let effMinVol := max minVol (maxVol / 25)
    let volClamped := clamp vol effMinVol maxVol
    let norm := clamp (Real.log (volClamped / effMinVol) /
      jsOr (Real.log (maxVol / effMinVol)) 1) 0 1
    let eased := norm ^ (1.1 : ℝ)
    let area := mapArea eased 1.55
    Real.sqrt area
  else
    -- cap
    let cap := jsOr metric.cap (jsOr ranges.minCap 1)
    let minCap := jsOr ranges.minCap 1
    let maxCap := jsOr ranges.maxCap (minCap + 1)
    let effMinCap := max minCap (maxCap / 25)
    let capClamped := clamp cap effMinCap maxCap
    let norm := clamp (Real.log (capClamped / effMinCap) /
      jsOr (Real.log (maxCap / effMinCap)) 1) 0 1
    let eased := norm ^ (1.1 : ℝ)
    let area := mapArea eased 1.55
    Real.sqrt area

def computeMetrics (coins : List CoinMarket) (timeframe : Timeframe) : List BubbleMetric :=
  coins.map fun coin =>
    { coin := coin
      cap := (coin.market_cap).getD 0
      change := |selectChangeByTimeframe coin timeframe|
      volume := (coin.total_volume).getD 1 }

structure ScatterPos where
  x : ℝ
  y : ℝ
  z : ℝ
  depth : ℝ
  x2d : ℝ
  y2d : ℝ

noncomputable def scatterPosition (index total : ℕ) (depthRange : DepthRange) : ScatterPos :=
  let phi := Real.arccos (2 * ((index : ℝ) + 0.5) / (total : ℝ) - 1)
  let theta := Real.pi * (1 + Real.sqrt 5) * ((index : ℝ) + 0.5)
  let r : ℝ := 1.0
  let x := r * Real.cos theta * Real.sin phi
  let y := r * Real.sin theta * Real.sin phi
  let z := r * Real.cos phi
  let depth := depthRange.min + (depthRange.max - depthRange.min) * ((z + 1) / 2)
  let norm := ((index : ℝ) + 0.5) / (total : ℝ)
  let golden := Real.pi * (3 - Real.sqrt 5)
  let angle := golden * ((index : ℝ) + 0.5)
  let r2d := Real.sqrt norm * 0.9
  let x2d := Real.cos angle * r2d
  let y2d := Real.sin angle * r2d
  { x := x, y := y, z := z, depth := depth, x2d := x2d, y2d := y2d }

/-- `Math.min(...l)` over a non-empty spread list (`0` sentinel is never
reached: every use is guarded by a non-emptiness check in the source). -/
noncomputable def listMin : List ℝ → ℝ
  | [] => 0
  | x :: xs => xs.foldl min x

noncomputable def listMax : List ℝ → ℝ
  | [] => 0
  | x :: xs => xs.foldl max x

/-- The per-instrument raw sizing value used by the rank chain:
`sizeMode === "volume" ? Math.max(m.volume, 1) : Math.max(m.cap, 1)`. -/
def rawSizeVal (sizeMode : SizeMode) (m : BubbleMetric) : ℝ :=
  if sizeMode = SizeMode.volume then max m.volume 1 else max m.cap 1

/-- The order of `.sort((a, b) => b.val - a.val)`: descending by value. -/
def byValDesc (a b : ℕ × ℝ) : Prop := b.2 ≤ a.2

noncomputable instance : DecidableRel byValDesc :=
  fun a b => inferInstanceAs (Decidable (b.2 ≤ a.2))

instance : IsTotal (ℕ × ℝ) byValDesc := ⟨fun a b => le_total b.2 a.2⟩

instance : IsTrans (ℕ × ℝ) byValDesc := ⟨fun _ _ _ h1 h2 => le_trans h2 h1⟩

/-- One iteration of the sequential rank-based radius loop
(`for (let k = 1; k < sorted.length; k++) ...`): the state is the
`radiusByIndex` array paired with the previous sorted entry. -/
noncomputable def chainStep (s : List ℝ × (ℕ × ℝ)) (current : ℕ × ℝ) : List ℝ × (ℕ × ℝ) :=
  let prev := s.2
  let ratio := clamp (current.2 / max prev.2 1) 0 1
  let easedRatio := ratio ^ (0.5 : ℝ)
  let weighted := 0.5 + 0.5 * easedRatio
  let r := max (MIN_RADIUS * 0.65) (s.1.getD prev.1 0 * weighted)
  (s.1.set current.1 r, current)

/-- The whole `radiusByIndex` derivation for cap/volume mode, starting
from the array filled with `MIN_RADIUS`, anchoring `sorted[0]` and then
running the rank chain and the global-scale map. -/
noncomputable def chainRadii (n : ℕ) (sorted : List (ℕ × ℝ)) (globalScale : ℝ) : List ℝ :=
  let init := List.replicate n MIN_RADIUS
  match sorted with
  | [] => init
  | s0 :: tail =>
      ((tail.foldl chainStep (init.set s0.1 (MAX_RADIUS * 1.55), s0)).1).map
        fun r => max (MIN_RADIUS * 0.7) (r * globalScale)

/-! ## Pack layout (`compute2DLayout`) -/

/-- The order of `[...nodes].sort((a, b) => b.radius - a.radius)` on
`(index, node)` pairs: descending by radius. -/
def byRadiusDesc (a b : ℕ × BubbleNode) : Prop := b.2.radius ≤ a.2.radius

noncomputable instance : DecidableRel byRadiusDesc :=
  fun a b => inferInstanceAs (Decidable (b.2.radius ≤ a.2.radius))

instance : IsTotal (ℕ × BubbleNode) byRadiusDesc := ⟨fun a b => le_total b.2.radius a.2.radius⟩

instance : IsTrans (ℕ × BubbleNode) byRadiusDesc := ⟨fun _ _ _ h1 h2 => le_trans h2 h1⟩

/-- The body of the `sorted.forEach` of `compute2DLayout` for a single
node: returns the new `layout2d` value together with the updated
random-stream counter (fresh nodes draw six random numbers, in source
order `x, y, vx, vy, seed, t`; nodes that already carry layout state
draw none and only get `scale` recomputed). -/
noncomputable def packUpdate (areaScale w h : ℝ) (rng : ℕ → ℝ) (node : BubbleNode)
    (ctr : ℕ) : Layout2DState × ℕ :=
  let targetScale := (0.75 + node.sizeFactor * 0.45) * areaScale
  match node.layout2d with
  | some l => ({ l with scale := targetScale }, ctr)
  | none =>
    let rPx := node.radius * targetScale
    let margin : ℝ := 8
    let x := margin + rPx + rng ctr * (w - 2 * (margin + rPx))
    let y := margin + rPx + rng (ctr + 1) * (h - 2 * (margin + rPx))
    ({ x := x, y := y, scale := targetScale,
       vx := some ((rng (ctr + 2) - 0.5) * 10),
       vy := some ((rng (ctr + 3) - 0.5) * 10),
       seed := some (rng (ctr + 4) * Real.pi * 2),
       t := some (rng (ctr + 5) * Real.pi * 2) }, ctr + 6)

/-- Runs `packUpdate` over the sorted `(index, node)` list, threading
the random counter and accumulating the per-index layout assignment
(later writes shadow earlier ones, as in-place mutation would). -/
noncomputable def packAssign (areaScale w h : ℝ) (rng : ℕ → ℝ) :
    List (ℕ × BubbleNode) → ℕ → (ℕ → Option Layout2DState) → (ℕ → Option Layout2DState)
  | [], _, f => f
  | p :: rest, ctr, f =>
      let u := packUpdate areaScale w h rng p.2 ctr
      packAssign areaScale w h rng rest u.2 (fun k => if k = p.1 then some u.1 else f k)

/-- The uniform `areaScale` correction of `compute2DLayout` (computed
from the radius-sorted node list and the floored viewport). -/
noncomputable def packAreaScale (nodes : List BubbleNode) (w h : ℝ) : ℝ :=
  let sorted := List.insertionSort byRadiusDesc nodes.enum
  let count := if nodes.length = 0 then 1 else nodes.length
  let avgRadius := (sorted.foldl (fun acc p => acc + p.2.radius) 0) / (count : ℝ)
  let baseArea := sorted.foldl
    (fun acc p =>
      let baseScale := 0.75 + p.2.sizeFactor * 0.45
      acc + Real.pi * (p.2.radius * baseScale) ^ (2 : ℕ)) 0
  let baseCoverage : ℝ := if 80 < count then 0.75 else if 60 < count then 0.78 else 0.82
  let radiusInflation := clamp ((avgRadius - 30) / 18) 0 1
  let coverageTarget := clamp (baseCoverage - radiusInflation * 0.12) 0.62 baseCoverage
  let targetArea := w * h * coverageTarget
  clamp (Real.sqrt (jsOr targetArea 1 / jsOr baseArea 1)) 0.85 1.35

noncomputable def compute2DLayout (nodes : List BubbleNode) (width height : ℝ)
    (rng : ℕ → ℝ) : List BubbleNode :=
  if nodes.length = 0 then nodes else
  let w := max 200 width
  let h := max 200 height
  let sorted := List.insertionSort byRadiusDesc nodes.enum
  let f := packAssign (packAreaScale nodes w h) w h rng sorted 0 (fun _ => none)
  nodes.enum.map fun p =>
    match f p.1 with
    | some l => { p.2 with layout2d := some l }
    | none => p.2

/-! ## Overlap resolver and physics stepper -/

/-- The pairwise positional separation of `resolveInitialOverlaps`:
half-overlap push along the separating unit vector (no velocity
response). -/
noncomputable def resolvePairStep (a b : BubbleNode) : BubbleNode × BubbleNode :=
  match a.layout2d, b.layout2d with
  | some pa, some pb =>
    let ar := a.radius * pa.scale
    let br := b.radius * pb.scale
    let dx := pb.x - pa.x
    let dy := pb.y - pa.y
    let distSq := dx * dx + dy * dy
    let minDist := ar + br + 8
    if distSq < minDist * minDist ∧ 0.0001 < distSq then
      let dist := Real.sqrt distSq
      let overlap := minDist - dist
      let nx := dx / dist
      let ny := dy / dist
      let push := overlap * 0.5
      ({ a with layout2d := some { pa with x := pa.x - nx * push, y := pa.y - ny * push } },
       { b with layout2d := some { pb with x := pb.x + nx * push, y := pb.y + ny * push } })
    else (a, b)
  | _, _ => (a, b)

/-- The pairwise interaction of `update2DPhysics`: the same positional
push followed by the impulse response when the nodes approach. -/
noncomputable def physicsPairStep (a b : BubbleNode) : BubbleNode × BubbleNode :=
  match a.layout2d, b.layout2d with
  | some pa, some pb =>
    let ar := a.radius * pa.scale
    let br := b.radius * pb.scale
    let dx := pb.x - pa.x
    let dy := pb.y - pa.y
    let distSq := dx * dx + dy * dy
    let minDist := ar + br + 8
    if distSq < minDist * minDist ∧ 0.0001 < distSq then
      let dist := Real.sqrt distSq
      let overlap := minDist - dist
      let nx := dx / dist
      let ny := dy / dist
      let push := overlap * 0.5
      let pa1 := { pa with x := pa.x - nx * push, y := pa.y - ny * push }
      let pb1 := { pb with x := pb.x + nx * push, y := pb.y + ny * push }
      let relVel := ((pb1.vx).getD 0 - (pa1.vx).getD 0) * nx +
        ((pb1.vy).getD 0 - (pa1.vy).getD 0) * ny
      if relVel < 0 then
        let impulse := -relVel * 0.45
        ({ a with layout2d := some { pa1 with
            vx := some ((pa1.vx).getD 0 - impulse * nx),
            vy := some ((pa1.vy).getD 0 - impulse * ny) } },
         { b with layout2d := some { pb1 with
            vx := some ((pb1.vx).getD 0 + impulse * nx),
            vy := some ((pb1.vy).getD 0 + impulse * ny) } })
      else
        ({ a with layout2d := some pa1 }, { b with layout2d := some pb1 })
    else (a, b)
  | _, _ => (a, b)

/-- The ordered pairs `(i, j)` with `i < j < n`, in the traversal order
of the nested `for` loops. -/
def pairIndices (n : ℕ) : List (ℕ × ℕ) :=
  (List.range n).flatMap fun i => (List.range' (i + 1) (n - (i + 1))).map fun j => (i, j)

/-- Applies a pairwise interaction to positions `i` and `j` of the node
list, writing both results back (the in-place mutation of the source). -/
noncomputable def applyPair (step : BubbleNode → BubbleNode → BubbleNode × BubbleNode)
    (ns : List BubbleNode) (ij : ℕ × ℕ) : List BubbleNode :=
  match ns[ij.1]?, ns[ij.2]? with
  | some a, some b =>
      let r := step a b
      (ns.set ij.1 r.1).set ij.2 r.2
  | _, _ => ns

/-- Clamps a node back inside the viewport (the per-iteration
`nodes.forEach` of `resolveInitialOverlaps`). -/
noncomputable def clampNode (w h : ℝ) (node : BubbleNode) : BubbleNode :=
  match node.layout2d with
  | none => node
  | some p =>
    let margin : ℝ := 12
    let r := node.radius * p.scale
    let maxX := w - margin - r
    let minX := margin + r
    let maxY := h - margin - r
    let minY := margin + r
    { node with layout2d := some { p with x := clamp p.x minX maxX, y := clamp p.y minY maxY } }

noncomputable def resolveIteration (w h : ℝ) (ns : List BubbleNode) : List BubbleNode :=
  (((pairIndices ns.length).foldl (applyPair resolvePairStep) ns).map (clampNode w h))

noncomputable def resolveInitialOverlaps (nodes : List BubbleNode) (width height : ℝ) :
    List BubbleNode :=
  let w := max width 200
  let h := max height 200
  (List.range 14).foldl (fun acc _ => resolveIteration w h acc) nodes

/-- Phase 1–2 of `update2DPhysics` for one node: integrate the position
and bounce off the viewport boundary. -/
noncomputable def integrateNode (w h dt : ℝ) (node : BubbleNode) : BubbleNode :=
  match node.layout2d with
  | none => node
  | some p =>
    let margin : ℝ := 12
    let r := node.radius * p.scale
    let x1 := p.x + (p.vx).getD 0 * dt
    let y1 := p.y + (p.vy).getD 0 * dt
    let maxX := w - margin - r
    let minX := margin + r
    let maxY := h - margin - r
    let minY := margin + r
    let xs : ℝ × Option ℝ :=
      if x1 < minX then (minX, some (|(p.vx).getD 0| * 0.85))
      else if maxX < x1 then (maxX, some (-(|(p.vx).getD 0| * 0.85)))
      else (x1, p.vx)
    let ys : ℝ × Option ℝ :=
      if y1 < minY then (minY, some (|(p.vy).getD 0| * 0.85))
      else if maxY < y1 then (maxY, some (-(|(p.vy).getD 0| * 0.85)))
      else (y1, p.vy)
    let p1 := { p with x := xs.1, vx := xs.2, y := ys.1, vy := ys.2 }
    { node with layout2d := some p1 }

/-- Phase 4 of `update2DPhysics` for one node: advance the wander clock,
damp the velocity by `0.992` (not time-scaled), and add the wander
steering force plus random jitter (two random draws per node). -/
noncomputable def wanderNode (dt : ℝ) (rngA rngB : ℝ) (node : BubbleNode) : BubbleNode :=
  match node.layout2d with
  | none => node
  | some p =>
    let t1 := (p.t).getD 0 + dt
    let seed := (p.seed).getD 0
    let wander : ℝ := 14
    let vx1 := (p.vx).getD 0 * 0.992 + Real.cos (seed + t1 * 1.2) * wander * dt +
      (rngA - 0.5) * 4 * dt
    let vy1 := (p.vy).getD 0 * 0.992 + Real.sin (seed + t1 * 1.35) * wander * dt +
      (rngB - 0.5) * 4 * dt
    { node with layout2d := some { p with t := some t1, vx := some vx1, vy := some vy1 } }

/-- The wander `forEach`, threading the random counter through the list
(a node without layout state draws nothing and is skipped). -/
noncomputable def wanderAll (dt : ℝ) (rng : ℕ → ℝ) (ctr : ℕ) :
    List BubbleNode → List BubbleNode
  | [] => []
  | node :: rest =>
    match node.layout2d with
    | none => node :: wanderAll dt rng ctr rest
    | some _ => wanderNode dt (rng ctr) (rng (ctr + 1)) node ::
        wanderAll dt rng (ctr + 2) rest

noncomputable def update2DPhysics (nodes : List BubbleNode) (width height dt : ℝ)
    (rng : ℕ → ℝ) : List BubbleNode :=
  let w := max width 200
  let h := max height 200
  let ns1 := nodes.map (integrateNode w h dt)
  let ns2 := (pairIndices ns1.length).foldl (applyPair physicsPairStep) ns1
  wanderAll dt rng 0 ns2

/-! ## The build operation (`buildBubbleNodes`) -/

/-- The sorted rank list of `buildBubbleNodes` for cap/volume mode:
`metrics.map((m, i) => ({i, val})).sort((a, b) => b.val - a.val)`. -/
noncomputable def rankSorted (metrics : List BubbleMetric) (sizeMode : SizeMode) :
    List (ℕ × ℝ) :=
  List.insertionSort byValDesc (metrics.enum.map fun p => (p.1, rawSizeVal sizeMode p.2))

/-- The spread-based global scale of the rank chain:
spread <= 2 gives tightness 0, spread >= 12 gives 1. -/
noncomputable def rankGlobalScale (sorted : List (ℕ × ℝ)) : ℝ :=
  let maxVal := ((sorted.head?).map fun q => q.2).getD 1
  let minVal := ((sorted.getLast?).map fun q => q.2).getD 1
  let spread := maxVal / max minVal 1
  let tightness := clamp ((spread - 2) / 10) 0 1
  0.72 + 0.28 * tightness

/-- The `radiusByIndex` value of `buildBubbleNodes`: the rank chain for
cap/volume mode, `null` (here `none`) for percent mode. -/
noncomputable def buildRadiusByIndex (n : ℕ) (metrics : List BubbleMetric)
    (sizeMode : SizeMode) : Option (List ℝ) :=
  if sizeMode = SizeMode.volume ∨ sizeMode = SizeMode.cap then
    let sorted := rankSorted metrics sizeMode
    some (chainRadii n sorted (rankGlobalScale sorted))
  else none

/-- The radius ranges handed to `calcRadius` by `buildBubbleNodes`. -/
noncomputable def buildRanges (metrics : List BubbleMetric) (sizeMode : SizeMode) :
    RadiusRanges :=
  let caps := (metrics.map fun m => m.cap).filter fun v => 0 < v
  let changes := metrics.map fun m => m.change
  let volumes := (metrics.map fun m => m.volume).filter fun v => 0 < v
  { minCap := if caps.length ≠ 0 then listMin caps else 0
    maxCap := if caps.length ≠ 0 then listMax caps else 1
    minChange := if changes.length ≠ 0 then listMin changes else 0
    maxChange := if changes.length ≠ 0 then listMax changes else 1
    minVolume := some (if volumes.length ≠ 0 then listMin volumes else 0)
    maxVolume := some (if volumes.length ≠ 0 then listMax volumes else 1)
    mode := some sizeMode }

/-- The `coins.map((coin, index) => ...)` stage of `buildBubbleNodes`:
one fresh node per instrument, radii and scatter positions filled in,
no 2D layout state yet. -/
noncomputable def buildPreNodes (coins : List CoinMarket)
    (options : BuildBubbleOptions) : List BubbleNode :=
  let timeframe := options.timeframe.getD Timeframe.h24
  let sizeMode := options.sizeMode.getD SizeMode.cap
  let depthRange := options.depthRange.getD { min := -1, max := 1 }
  let metrics := computeMetrics coins timeframe
  let radiusByIndex := buildRadiusByIndex coins.length metrics sizeMode
  let total := if coins.length = 0 then 1 else coins.length
  coins.enum.map fun p =>
    let index := p.1
    let metric := metrics.getD index defaultMetric
    let radius := match radiusByIndex with
      | some arr => arr.getD index 0
      | none => calcRadius metric (buildRanges metrics sizeMode)
    let sizeFactor := (radius - MIN_RADIUS) / jsOr (MAX_RADIUS - MIN_RADIUS) 1
    let pos := scatterPosition index total depthRange
    { coin := p.2, radius := radius, sizeFactor := sizeFactor,
      x := pos.x, y := pos.y, z := pos.z, depth := pos.depth,
      x2d := pos.x2d, y2d := pos.y2d, layout2d := none }

noncomputable def buildBubbleNodes (coins : List CoinMarket)
    (options : BuildBubbleOptions) (rng : ℕ → ℝ) : List BubbleNode :=
  if coins.length = 0 then [] else
  let nodes := buildPreNodes coins options
  let width := max 200 (options.width.getD 0)
  let height := max 200 (options.height.getD 0)
  if width ≠ 0 ∧ height ≠ 0 then
    resolveInitialOverlaps (compute2DLayout nodes width height rng) width height
  else nodes

/-- `hasPriceChanged` from `layout.ts` (the four compared fields, each
read with `?? 0`). -/
noncomputable def hasPriceChanged (prev next : Option CoinMarket) : Prop :=
  match prev, next with
  | none, _ => True
  | _, none => True
  | some p, some n =>
      0.0001 < |(p.current_price).getD 0 - (n.current_price).getD 0| ∨
      0.0001 < |(p.price_change_percentage_1h_in_currency).getD 0 -
        (n.price_change_percentage_1h_in_currency).getD 0| ∨
      0.0001 < |(p.price_change_percentage_24h).getD 0 -
        (n.price_change_percentage_24h).getD 0| ∨
      0.0001 < |(p.price_change_percentage_7d_in_currency).getD 0 -
        (n.price_change_percentage_7d_in_currency).getD 0|

/-! ## Generic list helpers -/

theorem list_set_self {α : Type} (l : List α) (i : ℕ) (a : α)
    (h : l[i]? = some a) : l.set i a = l := by
  induction l generalizing i with
  | nil => simp at h
  | cons x xs ih =>
    cases i with
    | zero => simp_all
    | succ k =>
      simp only [List.getElem?_cons_succ] at h
      simp [List.set, ih k h]

theorem foldl_fixed {α β : Type} (f : α → β → α) (a : α) (l : List β)
    (h : ∀ b ∈ l, f a b = a) : l.foldl f a = a := by
  induction l with
  | nil => rfl
  | cons x xs ih =>
    rw [List.foldl_cons, h x (List.mem_cons_self x xs)]
    exact ih fun b hb => h b (List.mem_cons_of_mem x hb)

theorem mem_pairIndices {n i j : ℕ} (h : (i, j) ∈ pairIndices n) :
    i < j ∧ j < n := by
  unfold pairIndices at h
  simp only [List.mem_flatMap, List.mem_map, List.mem_range, List.mem_range'] at h
  obtain ⟨i', hi', j', hj', heq⟩ := h
  obtain ⟨h1, h2⟩ := Prod.mk.injEq .. ▸ heq
  subst h1; subst h2
  omega

theorem getD_map_of_lt {α β : Type} (f : α → β) (l : List α) (i : ℕ) (d : β) (d' : α)
    (h : i < l.length) : (l.map f).getD i d = f (l.getD i d') := by
  rw [List.getD_eq_getElem?_getD, List.getD_eq_getElem?_getD, List.getElem?_map,
    List.getElem?_eq_getElem h]
  simp

/-! ## Core-field preservation through the layout passes

`coreView` collects the node fields that the layout passes never touch
(everything except `layout2d`); the lemmas below show each pass leaves
them pointwise unchanged. -/

def coreView (n : BubbleNode) : CoinMarket × ℝ × ℝ × ℝ × ℝ × ℝ × ℝ × ℝ × ℝ :=
  (n.coin, n.radius, n.sizeFactor, n.x, n.y, n.z, n.depth, n.x2d, n.y2d)

theorem coreView_resolvePairStep (a b : BubbleNode) :
    coreView (resolvePairStep a b).1 = coreView a ∧
    coreView (resolvePairStep a b).2 = coreView b := by
  unfold resolvePairStep
  cases ha : a.layout2d <;> cases hb : b.layout2d <;> simp [coreView]
  split <;> simp

theorem coreView_physicsPairStep (a b : BubbleNode) :
    coreView (physicsPairStep a b).1 = coreView a ∧
    coreView (physicsPairStep a b).2 = coreView b := by
  unfold physicsPairStep
  cases ha : a.layout2d <;> cases hb : b.layout2d <;> simp [coreView]
  split
  · split <;> simp
  · simp

theorem map_coreView_applyPair (step : BubbleNode → BubbleNode → BubbleNode × BubbleNode)
    (hstep : ∀ a b, coreView (step a b).1 = coreView a ∧ coreView (step a b).2 = coreView b)
    (ns : List BubbleNode) (ij : ℕ × ℕ) :
    (applyPair step ns ij).map coreView = ns.map coreView := by
  unfold applyPair
  cases ha : ns[ij.1]? with
  | none => simp
  | some a =>
    cases hb : ns[ij.2]? with
    | none => simp
    | some b =>
      simp only
      rw [List.map_set, List.map_set, (hstep a b).1, (hstep a b).2]
      rw [list_set_self (ns.map coreView) ij.1 (coreView a)
        (by rw [List.getElem?_map, ha]; rfl)]
      rw [list_set_self (ns.map coreView) ij.2 (coreView b)
        (by rw [List.getElem?_map, hb]; rfl)]

theorem map_coreView_pairFold (step : BubbleNode → BubbleNode → BubbleNode × BubbleNode)
    (hstep : ∀ a b, coreView (step a b).1 = coreView a ∧ coreView (step a b).2 = coreView b)
    (pairs : List (ℕ × ℕ)) (ns : List BubbleNode) :
    (pairs.foldl (applyPair step) ns).map coreView = ns.map coreView := by
  induction pairs generalizing ns with
  | nil => rfl
  | cons p ps ih =>
    rw [List.foldl_cons, ih, map_coreView_applyPair step hstep]

theorem coreView_clampNode (w h : ℝ) (node : BubbleNode) :
    coreView (clampNode w h node) = coreView node := by
  unfold clampNode
  cases hl : node.layout2d <;> simp [coreView]

theorem map_coreView_resolveIteration (w h : ℝ) (ns : List BubbleNode) :
    (resolveIteration w h ns).map coreView = ns.map coreView := by
  unfold resolveIteration
  rw [List.map_map]
  have : coreView ∘ clampNode w h = coreView := funext fun n => coreView_clampNode w h n
  rw [this, map_coreView_pairFold resolvePairStep coreView_resolvePairStep]

theorem map_coreView_resolveInitialOverlaps (ns : List BubbleNode) (width height : ℝ) :
    (resolveInitialOverlaps ns width height).map coreView = ns.map coreView := by
  unfold resolveInitialOverlaps
  simp only
  generalize List.range 14 = l
  induction l generalizing ns with
  | nil => rfl
  | cons x xs ih => rw [List.foldl_cons, ih, map_coreView_resolveIteration]

theorem map_coreView_compute2DLayout (ns : List BubbleNode) (width height : ℝ)
    (rng : ℕ → ℝ) :
    (compute2DLayout ns width height rng).map coreView = ns.map coreView := by
  unfold compute2DLayout
  split
  · rfl
  · simp only
    rw [List.map_map]
    have : ∀ p : ℕ × BubbleNode, ∀ f : ℕ → Option Layout2DState,
        coreView (match f p.1 with
          | some l => { p.2 with layout2d := some l }
          | none => p.2) = coreView p.2 := by
      intro p f
      cases f p.1 <;> simp [coreView]
    calc (ns.enum.map _) = ns.enum.map (coreView ∘ Prod.snd) := by
          refine List.map_congr_left fun p _ => ?_
          exact this p _
      _ = (ns.enum.map Prod.snd).map coreView := by rw [List.map_map]
      _ = ns.map coreView := by rw [List.enum_map_snd]

/-! ## Length preservation -/

theorem length_compute2DLayout (ns : List BubbleNode) (width height : ℝ) (rng : ℕ → ℝ) :
    (compute2DLayout ns width height rng).length = ns.length := by
  have h := congrArg List.length (map_coreView_compute2DLayout ns width height rng)
  simpa using h

theorem length_resolveInitialOverlaps (ns : List BubbleNode) (width height : ℝ) :
    (resolveInitialOverlaps ns width height).length = ns.length := by
  have h := congrArg List.length (map_coreView_resolveInitialOverlaps ns width height)
  simpa using h

theorem length_buildPreNodes (coins : List CoinMarket) (options : BuildBubbleOptions) :
    (buildPreNodes coins options).length = coins.length := by
  unfold buildPreNodes
  simp

theorem length_buildBubbleNodes (coins : List CoinMarket) (options : BuildBubbleOptions)
    (rng : ℕ → ℝ) : (buildBubbleNodes coins options rng).length = coins.length := by
  unfold buildBubbleNodes
  split
  · simp only [List.length_nil]; omega
  · dsimp only
    split
    · rw [length_resolveInitialOverlaps, length_compute2DLayout, length_buildPreNodes]
    · exact length_buildPreNodes coins options

/-! ## `packAssign` bookkeeping -/

theorem packAssign_untouched (areaScale w h : ℝ) (rng : ℕ → ℝ)
    (list : List (ℕ × BubbleNode)) (ctr : ℕ) (f : ℕ → Option Layout2DState) (i : ℕ)
    (hi : i ∉ list.map Prod.fst) :
    packAssign areaScale w h rng list ctr f i = f i := by
  induction list generalizing ctr f with
  | nil => rfl
  | cons p rest ih =>
    simp only [List.map_cons, List.mem_cons] at hi
    push_neg at hi
    rw [packAssign, ih _ _ (fun h => hi.2 h)]
    simp [hi.1]

theorem packAssign_assigned (areaScale w h : ℝ) (rng : ℕ → ℝ)
    (list : List (ℕ × BubbleNode)) (ctr : ℕ) (f : ℕ → Option Layout2DState)
    (i : ℕ) (node : BubbleNode)
    (hnd : (list.map Prod.fst).Nodup) (hmem : (i, node) ∈ list) :
    ∃ c, packAssign areaScale w h rng list ctr f i =
      some (packUpdate areaScale w h rng node c).1 := by
  induction list generalizing ctr f with
  | nil => simp at hmem
  | cons p rest ih =>
    simp only [List.map_cons, List.nodup_cons] at hnd
    rcases List.mem_cons.mp hmem with heq | hrest
    · subst heq
      rw [packAssign, packAssign_untouched _ _ _ _ _ _ _ _ hnd.1]
      exact ⟨ctr, by simp⟩
    · exact ih _ _ hnd.2 hrest

theorem packAssign_isSome (areaScale w h : ℝ) (rng : ℕ → ℝ)
    (list : List (ℕ × BubbleNode)) (ctr : ℕ) (f : ℕ → Option Layout2DState) (i : ℕ)
    (hi : i ∈ list.map Prod.fst) :
    (packAssign areaScale w h rng list ctr f i).isSome := by
  induction list generalizing ctr f with
  | nil => simp at hi
  | cons p rest ih =>
    by_cases hr : i ∈ rest.map Prod.fst
    · exact ih _ _ hr
    · simp only [List.map_cons, List.mem_cons] at hi
      rcases hi with heq | hrest
      · rw [packAssign, packAssign_untouched _ _ _ _ _ _ _ _ hr]
        simp [heq]
      · exact absurd hrest hr

/-! ## Layout-state presence -/

theorem isSome_resolvePairStep (a b : BubbleNode)
    (ha : a.layout2d.isSome) (hb : b.layout2d.isSome) :
    (resolvePairStep a b).1.layout2d.isSome ∧ (resolvePairStep a b).2.layout2d.isSome := by
  unfold resolvePairStep
  cases h1 : a.layout2d with
  | none => simp_all
  | some pa =>
    cases h2 : b.layout2d with
    | none => simp_all
    | some pb =>
      simp only
      split
      · simp
      · exact ⟨ha, hb⟩

theorem isSome_pairFold (pairs : List (ℕ × ℕ)) (ns : List BubbleNode)
    (h : ∀ node ∈ ns, node.layout2d.isSome) :
    ∀ node ∈ pairs.foldl (applyPair resolvePairStep) ns, node.layout2d.isSome := by
  induction pairs generalizing ns with
  | nil => exact h
  | cons p ps ih =>
    rw [List.foldl_cons]
    refine ih _ fun node hmem => ?_
    unfold applyPair at hmem
    cases hga : ns[p.1]? with
    | none => rw [hga] at hmem; exact h node hmem
    | some a =>
      cases hgb : ns[p.2]? with
      | none => rw [hga, hgb] at hmem; exact h node hmem
      | some b =>
        rw [hga, hgb] at hmem
        simp only at hmem
        have ha := h a (List.getElem?_mem hga)
        have hb := h b (List.getElem?_mem hgb)
        have hres := isSome_resolvePairStep a b ha hb
        rcases List.mem_or_eq_of_mem_set hmem with hmem1 | heq
        · rcases List.mem_or_eq_of_mem_set hmem1 with hmem2 | heq1
          · exact h node hmem2
          · rw [heq1]; exact hres.1
        · rw [heq]; exact hres.2

theorem isSome_resolveInitialOverlaps (ns : List BubbleNode) (width height : ℝ)
    (h : ∀ node ∈ ns, node.layout2d.isSome) :
    ∀ node ∈ resolveInitialOverlaps ns width height, node.layout2d.isSome := by
  unfold resolveInitialOverlaps
  simp only
  generalize List.range 14 = l
  induction l generalizing ns with
  | nil => exact h
  | cons x xs ih =>
    rw [List.foldl_cons]
    refine ih _ fun node hmem => ?_
    unfold resolveIteration at hmem
    rcases List.mem_map.mp hmem with ⟨m, hm, hclamp⟩
    have hms := isSome_pairFold _ _ h m hm
    rw [← hclamp]
    unfold clampNode
    cases hl : m.layout2d with
    | none => rw [hl] at hms; simp at hms
    | some p => simp

theorem isSome_compute2DLayout (ns : List BubbleNode) (width height : ℝ) (rng : ℕ → ℝ)
    (node : BubbleNode) (hmem : node ∈ compute2DLayout ns width height rng) :
    node.layout2d.isSome := by
  unfold compute2DLayout at hmem
  by_cases hlen : ns.length = 0
  · rw [if_pos hlen] at hmem
    rw [List.length_eq_zero.mp hlen] at hmem
    simp at hmem
  · rw [if_neg hlen] at hmem
    simp only at hmem
    rcases List.mem_map.mp hmem with ⟨p, hp, hnode⟩
    have hfst : p.1 ∈ (List.insertionSort byRadiusDesc ns.enum).map Prod.fst := by
      have hperm : ((List.insertionSort byRadiusDesc ns.enum).map Prod.fst).Perm
          (ns.enum.map Prod.fst) := (List.perm_insertionSort byRadiusDesc ns.enum).map _
      rw [hperm.mem_iff]
      exact List.mem_map_of_mem Prod.fst (by
        rw [List.mem_enum_iff_getElem?]
        rw [List.mem_enum_iff_getElem?] at hp
        exact hp)
    have hsome := packAssign_isSome (packAreaScale ns (max 200 width) (max 200 height))
      (max 200 width) (max 200 height) rng (List.insertionSort byRadiusDesc ns.enum) 0
      (fun _ => none) p.1 hfst
    rw [← hnode]
    cases hf : packAssign (packAreaScale ns (max 200 width) (max 200 height))
        (max 200 width) (max 200 height) rng (List.insertionSort byRadiusDesc ns.enum) 0
        (fun _ => none) p.1 with
    | none => rw [hf] at hsome; simp at hsome
    | some l => simp

/-! ## Rank-chain analysis -/

theorem le_clamp (v lo hi : ℝ) : lo ≤ clamp v lo hi := le_max_left lo _

theorem clamp_le (v lo hi : ℝ) (h : lo ≤ hi) : clamp v lo hi ≤ hi :=
  max_le h (min_le_left hi v)

/-- The blended ratio `0.5 + 0.5 * ratio ** 0.5` of the rank chain lies
in `[1/2, 1]`. -/
theorem chainWeighted_bounds (x : ℝ) :
    0.5 ≤ 0.5 + 0.5 * (clamp x 0 1) ^ (0.5 : ℝ) ∧
    0.5 + 0.5 * (clamp x 0 1) ^ (0.5 : ℝ) ≤ 1 := by
  have h0 : (0 : ℝ) ≤ clamp x 0 1 := le_clamp x 0 1
  have h1 : clamp x 0 1 ≤ 1 := clamp_le x 0 1 (by norm_num)
  have hr0 : 0 ≤ (clamp x 0 1) ^ (0.5 : ℝ) := Real.rpow_nonneg h0 _
  have hr1 : (clamp x 0 1) ^ (0.5 : ℝ) ≤ 1 := Real.rpow_le_one h0 h1 (by norm_num)
  constructor <;> nlinarith

theorem getD_zero_bounds (l : List ℝ) (i : ℕ) (c : ℝ) (hc : 0 ≤ c)
    (h : ∀ x ∈ l, 0 ≤ x ∧ x ≤ c) : 0 ≤ l.getD i 0 ∧ l.getD i 0 ≤ c := by
  rw [List.getD_eq_getElem?_getD]
  cases hg : l[i]? with
  | none => simpa using hc
  | some v => simpa using h v (List.getElem?_mem hg)

theorem chainStep_eq (arr : List ℝ) (prev cur : ℕ × ℝ) :
    chainStep (arr, prev) cur =
      (arr.set cur.1 (max (MIN_RADIUS * 0.65) (arr.getD prev.1 0 *
        (0.5 + 0.5 * (clamp (cur.2 / max prev.2 1) 0 1) ^ (0.5 : ℝ)))), cur) := rfl

theorem chain_length (rest : List (ℕ × ℝ)) : ∀ (prev : ℕ × ℝ) (arr : List ℝ),
    ((rest.foldl chainStep (arr, prev)).1).length = arr.length := by
  induction rest with
  | nil => intro prev arr; rfl
  | cons cur rest' ih =>
    intro prev arr
    rw [List.foldl_cons, chainStep_eq]
    rw [ih cur _, List.length_set]

theorem chain_bounds (rest : List (ℕ × ℝ)) : ∀ (prev : ℕ × ℝ) (arr : List ℝ),
    (∀ x ∈ arr, 0 ≤ x ∧ x ≤ MAX_RADIUS * 1.55) →
    ∀ x ∈ (rest.foldl chainStep (arr, prev)).1, 0 ≤ x ∧ x ≤ MAX_RADIUS * 1.55 := by
  induction rest with
  | nil => intro prev arr h; simpa using h
  | cons cur rest' ih =>
    intro prev arr h
    rw [List.foldl_cons, chainStep_eq]
    refine ih cur _ fun x hx => ?_
    rcases List.mem_or_eq_of_mem_set hx with hmem | heq
    · exact h x hmem
    · subst heq
      have hread := getD_zero_bounds arr prev.1 (MAX_RADIUS * 1.55)
        (by rw [MAX_RADIUS]; norm_num) h
      have hw := chainWeighted_bounds (cur.2 / max prev.2 1)
      constructor
      · refine le_trans ?_ (le_max_left _ _)
        rw [MIN_RADIUS]; norm_num
      · refine max_le ?_ ?_
        · rw [MIN_RADIUS, MAX_RADIUS]; norm_num
        · calc arr.getD prev.1 0 * (0.5 + 0.5 * (clamp (cur.2 / max prev.2 1) 0 1) ^ (0.5 : ℝ))
              ≤ arr.getD prev.1 0 * 1 := by
                refine mul_le_mul_of_nonneg_left hw.2 hread.1
          _ = arr.getD prev.1 0 := mul_one _
          _ ≤ MAX_RADIUS * 1.55 := hread.2

theorem chain_untouched (rest : List (ℕ × ℝ)) : ∀ (prev : ℕ × ℝ) (arr : List ℝ)
    (idx : ℕ), idx ∉ rest.map Prod.fst →
    ((rest.foldl chainStep (arr, prev)).1).getD idx 0 = arr.getD idx 0 := by
  induction rest with
  | nil => intro prev arr idx _; rfl
  | cons cur rest' ih =>
    intro prev arr idx hidx
    simp only [List.map_cons, List.mem_cons] at hidx
    push_neg at hidx
    rw [List.foldl_cons, chainStep_eq, ih cur _ idx hidx.2]
    rw [List.getD_eq_getElem?_getD, List.getElem?_set_ne (Ne.symm hidx.1),
      ← List.getD_eq_getElem?_getD]

/-- The main rank-chain invariant: running the chain from state
`(arr, prev)` leaves `arr[prev.i]` unchanged and assigns every later
rank a radius at most `max minR arr[prev.i]`. -/
theorem chain_main (rest : List (ℕ × ℝ)) : ∀ (prev : ℕ × ℝ) (arr : List ℝ),
    ((prev.1 :: rest.map Prod.fst).Nodup) →
    (∀ x ∈ arr, 0 ≤ x) →
    (∀ q ∈ rest, q.1 < arr.length) →
    (((rest.foldl chainStep (arr, prev)).1).getD prev.1 0 = arr.getD prev.1 0) ∧
    (∀ q ∈ rest, ((rest.foldl chainStep (arr, prev)).1).getD q.1 0 ≤
      max (MIN_RADIUS * 0.65) (arr.getD prev.1 0)) := by
  induction rest with
  | nil => intro prev arr _ _ _; exact ⟨rfl, by simp⟩
  | cons cur rest' ih =>
    intro prev arr hnd hpos hlen
    have hnd1 : prev.1 ∉ (cur :: rest').map Prod.fst := (List.nodup_cons.mp hnd).1
    have hnd2 : (cur.1 :: rest'.map Prod.fst).Nodup := by
      simpa using (List.nodup_cons.mp hnd).2
    simp only [List.map_cons, List.mem_cons] at hnd1
    push_neg at hnd1
    have hcurlt : cur.1 < arr.length := hlen cur (List.mem_cons_self cur rest')
    set w := 0.5 + 0.5 * (clamp (cur.2 / max prev.2 1) 0 1) ^ (0.5 : ℝ) with hw
    set r := max (MIN_RADIUS * 0.65) (arr.getD prev.1 0 * w) with hr
    have hrpos : (0 : ℝ) ≤ r := by
      refine le_trans ?_ (le_max_left _ _)
      rw [MIN_RADIUS]; norm_num
    have harr' : ∀ x ∈ arr.set cur.1 r, 0 ≤ x := by
      intro x hx
      rcases List.mem_or_eq_of_mem_set hx with hmem | heq
      · exact hpos x hmem
      · rw [heq]; exact hrpos
    have hlen' : ∀ q ∈ rest', q.1 < (arr.set cur.1 r).length := by
      intro q hq
      rw [List.length_set]
      exact hlen q (List.mem_cons_of_mem cur hq)
    have hih := ih cur (arr.set cur.1 r) hnd2 harr' hlen'
    have hset : (arr.set cur.1 r).getD cur.1 0 = r := by
      rw [List.getD_eq_getElem?_getD, List.getElem?_set_self hcurlt]
      rfl
    have hread0 : 0 ≤ arr.getD prev.1 0 := by
      rw [List.getD_eq_getElem?_getD]
      cases hg : arr[prev.1]? with
      | none => simp
      | some v => simpa using hpos v (List.getElem?_mem hg)
    have hwb := chainWeighted_bounds (cur.2 / max prev.2 1)
    have hrle : r ≤ max (MIN_RADIUS * 0.65) (arr.getD prev.1 0) := by
      rw [hr]
      refine max_le_max le_rfl ?_
      calc arr.getD prev.1 0 * w ≤ arr.getD prev.1 0 * 1 :=
            mul_le_mul_of_nonneg_left (hw ▸ hwb.2) hread0
        _ = arr.getD prev.1 0 := mul_one _
    constructor
    · rw [List.foldl_cons, chainStep_eq, ← hw, ← hr]
      rw [chain_untouched rest' cur (arr.set cur.1 r) prev.1 hnd1.2]
      rw [List.getD_eq_getElem?_getD, List.getD_eq_getElem?_getD,
        List.getElem?_set_ne (Ne.symm hnd1.1)]
    · intro q hq
      rw [List.foldl_cons, chainStep_eq, ← hw, ← hr]
      rcases List.mem_cons.mp hq with heq | hq'
      · subst heq
        rw [hih.1, hset]
        exact hrle
      · refine le_trans (hih.2 q hq') ?_
        rw [hset]
        have : max (MIN_RADIUS * 0.65) r = r := max_eq_right (le_max_left _ _)
        rw [this]
        exact hrle

theorem chainRadii_length (n : ℕ) (sorted : List (ℕ × ℝ)) (gs : ℝ) :
    (chainRadii n sorted gs).length = n := by
  unfold chainRadii
  cases sorted with
  | nil => simp
  | cons s0 tail =>
    simp only
    rw [List.length_map, chain_length, List.length_set, List.length_replicate]

theorem rankGlobalScale_bounds (sorted : List (ℕ × ℝ)) :
    0.72 ≤ rankGlobalScale sorted ∧ rankGlobalScale sorted ≤ 1 := by
  have h0 := le_clamp ((((sorted.head?).map fun q => q.2).getD 1 /
    max (((sorted.getLast?).map fun q => q.2).getD 1) 1 - 2) / 10) 0 1
  have h1 := clamp_le ((((sorted.head?).map fun q => q.2).getD 1 /
    max (((sorted.getLast?).map fun q => q.2).getD 1) 1 - 2) / 10) 0 1 (by norm_num)
  simp only [rankGlobalScale]
  constructor <;> nlinarith

/-- Bounds on the anchored initial array. -/
theorem chainInit_bounds (n : ℕ) (i : ℕ) :
    ∀ z ∈ (List.replicate n MIN_RADIUS).set i (MAX_RADIUS * 1.55),
      0 ≤ z ∧ z ≤ MAX_RADIUS * 1.55 := by
  intro z hz
  rcases List.mem_or_eq_of_mem_set hz with hmem | heq
  · have := List.eq_of_mem_replicate hmem
    subst this
    rw [MIN_RADIUS, MAX_RADIUS]; norm_num
  · subst heq
    constructor
    · rw [MAX_RADIUS]; norm_num
    · exact le_refl _

theorem chainRadii_mem_bounds (n : ℕ) (sorted : List (ℕ × ℝ)) (gs : ℝ)
    (_hgs : 0.72 ≤ gs) (hgs1 : gs ≤ 1) :
    ∀ x ∈ chainRadii n sorted gs, MIN_RADIUS * 0.65 ≤ x ∧ x ≤ MAX_RADIUS * 1.55 := by
  unfold chainRadii
  cases sorted with
  | nil =>
    intro x hx
    simp only at hx
    have := List.eq_of_mem_replicate hx
    subst this
    rw [MIN_RADIUS, MAX_RADIUS]; norm_num
  | cons s0 tail =>
    intro x hx
    simp only at hx
    rcases List.mem_map.mp hx with ⟨y, hy, hxy⟩
    have hb := chain_bounds tail s0 _ (chainInit_bounds n s0.1) y hy
    rw [← hxy]
    constructor
    · refine le_trans ?_ (le_max_left _ _)
      rw [MIN_RADIUS]; norm_num
    · refine max_le ?_ ?_
      · rw [MIN_RADIUS, MAX_RADIUS]; norm_num
      · calc y * gs ≤ y * 1 := mul_le_mul_of_nonneg_left hgs1 hb.1
          _ = y := mul_one y
          _ ≤ MAX_RADIUS * 1.55 := hb.2

/-- Rank-order preservation of the whole `radiusByIndex` derivation:
an instrument appearing strictly earlier in the sorted rank list is
assigned a radius at least as large as any later one. -/
theorem chainRadii_order (n : ℕ) (sorted : List (ℕ × ℝ)) (gs : ℝ)
    (hgs : 0 ≤ gs)
    (hnd : (sorted.map Prod.fst).Nodup)
    (hlen : ∀ q ∈ sorted, q.1 < n)
    (ki kj : ℕ) (hki : ki < sorted.length) (hkj : kj < sorted.length) (hij : ki < kj) :
    (chainRadii n sorted gs).getD (sorted.get ⟨kj, hkj⟩).1 0 ≤
    (chainRadii n sorted gs).getD (sorted.get ⟨ki, hki⟩).1 0 := by
  cases sorted with
  | nil => simp at hki
  | cons s0 tail =>
    -- notation for the inner (pre-globalScale) chained array
    set arr0 := (List.replicate n MIN_RADIUS).set s0.1 (MAX_RADIUS * 1.55) with harr0
    set inner := (tail.foldl chainStep (arr0, s0)).1 with hinner
    have hinnerlen : inner.length = n := by
      rw [hinner, chain_length, harr0, List.length_set, List.length_replicate]
    have hidxi : (List.get (s0 :: tail) ⟨ki, hki⟩).1 < n :=
      hlen _ (List.get_mem _ _ _)
    have hidxj : (List.get (s0 :: tail) ⟨kj, hkj⟩).1 < n :=
      hlen _ (List.get_mem _ _ _)
    have hmapped : ∀ (idx : ℕ), idx < n →
        (chainRadii n (s0 :: tail) gs).getD idx 0 =
          max (MIN_RADIUS * 0.7) (inner.getD idx 0 * gs) := by
      intro idx hidx
      unfold chainRadii
      simp only [← harr0, ← hinner]
      rw [getD_map_of_lt _ _ idx 0 0 (by rw [hinnerlen]; exact hidx)]
    rw [hmapped _ hidxi, hmapped _ hidxj]
    refine max_le_max le_rfl (mul_le_mul_of_nonneg_right ?_ hgs)
    -- core inequality on the inner chained array
    have hinitpos : ∀ x ∈ arr0, 0 ≤ x := fun x hx => (chainInit_bounds n s0.1 x hx).1
    have hndtail : (s0.1 :: tail.map Prod.fst).Nodup := by simpa using hnd
    cases ki with
    | zero =>
      -- the anchor: inner[s0.1] = MAX_RADIUS * 1.55, everything else below it
      have hlentail : ∀ q ∈ tail, q.1 < arr0.length := by
        intro q hq
        rw [harr0, List.length_set, List.length_replicate]
        exact hlen q (List.mem_cons_of_mem s0 hq)
      have hmain := chain_main tail s0 arr0 hndtail hinitpos hlentail
      have hanchor : arr0.getD s0.1 0 = MAX_RADIUS * 1.55 := by
        rw [harr0, List.getD_eq_getElem?_getD, List.getElem?_set_self
          (by rw [List.length_replicate]; exact hlen s0 (List.mem_cons_self s0 tail))]
        rfl
      obtain ⟨kj', rfl⟩ : ∃ kj', kj = kj' + 1 := ⟨kj - 1, by omega⟩
      have hkj' : kj' < tail.length := by simpa using hkj
      have hqj : List.get (s0 :: tail) ⟨kj' + 1, hkj⟩ = tail.get ⟨kj', hkj'⟩ := rfl
      have hmem : tail.get ⟨kj', hkj'⟩ ∈ tail := List.get_mem _ _ _
      have h2 := hmain.2 _ hmem
      rw [hanchor] at h2
      have hmaxeq : max (MIN_RADIUS * 0.65) (MAX_RADIUS * 1.55) = MAX_RADIUS * 1.55 := by
        rw [MIN_RADIUS, MAX_RADIUS]; norm_num
      rw [hmaxeq] at h2
      rw [hqj]
      calc inner.getD (tail.get ⟨kj', hkj'⟩).1 0 ≤ MAX_RADIUS * 1.55 := h2
        _ = arr0.getD s0.1 0 := hanchor.symm
        _ = inner.getD (List.get (s0 :: tail) ⟨0, hki⟩).1 0 := by
            rw [← hmain.1]; rfl
    | succ m =>
      have hm : m < tail.length := by simpa using hki
      have hki' : List.get (s0 :: tail) ⟨m + 1, hki⟩ = tail.get ⟨m, hm⟩ := rfl
      obtain ⟨kj', rfl⟩ : ∃ kj', kj = kj' + 1 := ⟨kj - 1, by omega⟩
      have hkj' : kj' < tail.length := by simpa using hkj
      have hkj'' : List.get (s0 :: tail) ⟨kj' + 1, hkj⟩ = tail.get ⟨kj', hkj'⟩ := rfl
      set ski := tail.get ⟨m, hm⟩ with hski
      set l1 := tail.take m with hl1
      set l2 := tail.drop (m + 1) with hl2
      have hsplit : tail = l1 ++ ski :: l2 := by
        rw [hl1, hl2, hski]
        have h1 : List.drop m tail = tail.get ⟨m, hm⟩ :: List.drop (m + 1) tail := by
          rw [List.drop_eq_getElem_cons hm]
          simp
        rw [← h1, List.take_append_drop]
      set st1 := l1.foldl chainStep (arr0, s0) with hst1
      have hst1pair : st1 = (st1.1, st1.2) := rfl
      have hinnersplit : inner = (l2.foldl chainStep (chainStep st1 ski)).1 := by
        rw [hinner]
        conv_lhs => rw [hsplit]
        rw [List.foldl_append, List.foldl_cons, ← hst1]
      have hst1len : st1.1.length = n := by
        rw [hst1, chain_length, harr0, List.length_set, List.length_replicate]
      have hst1pos : ∀ x ∈ st1.1, 0 ≤ x := by
        intro x hx
        exact (chain_bounds l1 s0 arr0 (chainInit_bounds n s0.1) x (hst1 ▸ hx)).1
      set ri := max (MIN_RADIUS * 0.65) (st1.1.getD st1.2.1 0 *
        (0.5 + 0.5 * (clamp (ski.2 / max st1.2.2 1) 0 1) ^ (0.5 : ℝ))) with hri
      have hstepval : chainStep st1 ski = (st1.1.set ski.1 ri, ski) := by
        rw [hst1pair, chainStep_eq, ← hri]
      have hrige : MIN_RADIUS * 0.65 ≤ ri := le_max_left _ _
      -- nodup of the suffix
      have hmapsplit : tail.map Prod.fst =
          l1.map Prod.fst ++ ski.1 :: l2.map Prod.fst := by
        conv_lhs => rw [hsplit]
        simp
      have hndsuffix : (ski.1 :: l2.map Prod.fst).Nodup := by
        have h1 : (tail.map Prod.fst).Nodup := (List.nodup_cons.mp hndtail).2
        rw [hmapsplit] at h1
        exact h1.of_append_right
      have hl2len : ∀ q ∈ l2, q.1 < (st1.1.set ski.1 ri).length := by
        intro q hq
        rw [List.length_set, hst1len]
        refine hlen q (List.mem_cons_of_mem s0 ?_)
        rw [hsplit]
        exact List.mem_append_right l1 (List.mem_cons_of_mem ski hq)
      have hsetpos : ∀ x ∈ st1.1.set ski.1 ri, 0 ≤ x := by
        intro x hx
        rcases List.mem_or_eq_of_mem_set hx with hmem | heq
        · exact hst1pos x hmem
        · rw [heq]
          refine le_trans ?_ hrige
          rw [MIN_RADIUS]; norm_num
      have hmain := chain_main l2 ski (st1.1.set ski.1 ri) hndsuffix hsetpos hl2len
      have hskilt : ski.1 < st1.1.length := by
        rw [hst1len]
        refine hlen ski (List.mem_cons_of_mem s0 ?_)
        rw [hsplit]
        exact List.mem_append_right l1 (List.mem_cons_self ski l2)
      have hsetval : (st1.1.set ski.1 ri).getD ski.1 0 = ri := by
        rw [List.getD_eq_getElem?_getD, List.getElem?_set_self hskilt]
        rfl
      have hvali : inner.getD ski.1 0 = ri := by
        rw [hinnersplit, hstepval, hmain.1, hsetval]
      -- the later rank kj sits in the l2 suffix
      have hmeml2 : tail.get ⟨kj', hkj'⟩ ∈ l2 := by
        rw [hl2]
        have hsome : (List.drop (m + 1) tail)[kj' - (m + 1)]? =
            some (tail.get ⟨kj', hkj'⟩) := by
          rw [List.getElem?_drop]
          have harith : m + 1 + (kj' - (m + 1)) = kj' := by omega
          rw [harith]
          simp [List.getElem?_eq_getElem hkj']
        exact List.getElem?_mem hsome
      have h2 := hmain.2 _ hmeml2
      rw [hsetval] at h2
      have hmaxri : max (MIN_RADIUS * 0.65) ri = ri := max_eq_right hrige
      rw [hmaxri] at h2
      rw [hki', hkj'', hvali]
      calc inner.getD (tail.get ⟨kj', hkj'⟩).1 0 =
            ((l2.foldl chainStep (chainStep st1 ski)).1).getD (tail.get ⟨kj', hkj'⟩).1 0 := by
              rw [hinnersplit]
        _ ≤ ri := by rw [hstepval]; exact h2

/-! ## Per-index characterization of the build output -/

/-- The radius assigned to instrument `index` by `buildBubbleNodes`
(the `radiusByIndex !== null ? radiusByIndex[index] : calcRadius(...)`
expression). -/
noncomputable def buildRadiusAt (coins : List CoinMarket) (options : BuildBubbleOptions)
    (index : ℕ) : ℝ :=
  let timeframe := options.timeframe.getD Timeframe.h24
  let sizeMode := options.sizeMode.getD SizeMode.cap
  let metrics := computeMetrics coins timeframe
  match buildRadiusByIndex coins.length metrics sizeMode with
  | some arr => arr.getD index 0
  | none => calcRadius (metrics.getD index defaultMetric) (buildRanges metrics sizeMode)

theorem buildPreNodes_fields (coins : List CoinMarket) (options : BuildBubbleOptions)
    (i : ℕ) (hi : i < coins.length) :
    ((buildPreNodes coins options).getD i defaultNode).coin = coins.getD i defaultCoin ∧
    ((buildPreNodes coins options).getD i defaultNode).radius = buildRadiusAt coins options i ∧
    ((buildPreNodes coins options).getD i defaultNode).sizeFactor =
      (buildRadiusAt coins options i - MIN_RADIUS) / jsOr (MAX_RADIUS - MIN_RADIUS) 1 := by
  have hc : coins[i]? = some (coins.getD i defaultCoin) := by
    rw [List.getD_eq_getElem?_getD, List.getElem?_eq_getElem hi]
    rfl
  unfold buildPreNodes
  rw [List.getD_eq_getElem?_getD, List.getElem?_map, List.getElem?_enum, hc]
  simp only [Option.map_some]
  unfold buildRadiusAt
  simp only [Option.getD_some]
  cases buildRadiusByIndex coins.length
      (computeMetrics coins (options.timeframe.getD Timeframe.h24))
      (options.sizeMode.getD SizeMode.cap) <;>
    exact ⟨rfl, rfl, rfl⟩

theorem coreView_getD_of_map_eq (xs ys : List BubbleNode)
    (h : xs.map coreView = ys.map coreView) (i : ℕ) :
    coreView (xs.getD i defaultNode) = coreView (ys.getD i defaultNode) := by
  have hlen : xs.length = ys.length := by
    have hl := congrArg List.length h
    simpa using hl
  by_cases hi : i < xs.length
  · have h1 : (xs.map coreView)[i]? = (ys.map coreView)[i]? := by rw [h]
    rw [List.getElem?_map, List.getElem?_map,
      List.getElem?_eq_getElem hi, List.getElem?_eq_getElem (hlen ▸ hi)] at h1
    simp only [Option.map_some, Option.some.injEq] at h1
    rw [List.getD_eq_getElem?_getD, List.getD_eq_getElem?_getD,
      List.getElem?_eq_getElem hi, List.getElem?_eq_getElem (hlen ▸ hi)]
    simpa using h1
  · rw [List.getD_eq_getElem?_getD, List.getD_eq_getElem?_getD,
      List.getElem?_eq_none (by omega), List.getElem?_eq_none (by omega)]

/-- The 2D-layout passes change only `layout2d`: the build output agrees
with the freshly mapped nodes on every other field. -/
theorem buildBubbleNodes_coreView (coins : List CoinMarket) (options : BuildBubbleOptions)
    (rng : ℕ → ℝ) (hne : coins.length ≠ 0) :
    (buildBubbleNodes coins options rng).map coreView =
      (buildPreNodes coins options).map coreView := by
  unfold buildBubbleNodes
  rw [if_neg hne]
  dsimp only
  split
  · rw [map_coreView_resolveInitialOverlaps, map_coreView_compute2DLayout]
  · rfl

theorem coreView_eq_fields {a b : BubbleNode} (h : coreView a = coreView b) :
    a.coin = b.coin ∧ a.radius = b.radius ∧ a.sizeFactor = b.sizeFactor := by
  simp only [coreView, Prod.ext_iff] at h
  exact ⟨h.1, h.2.1, h.2.2.1⟩

/-- The percent branch of `calcRadius` maps linearly into
`[MIN_RADIUS, MAX_RADIUS]`. -/
theorem calcRadius_percent_bounds (metric : BubbleMetric) (ranges : RadiusRanges)
    (hmode : ranges.mode = some SizeMode.percent) :
    MIN_RADIUS ≤ calcRadius metric ranges ∧ calcRadius metric ranges ≤ MAX_RADIUS := by
  unfold calcRadius
  rw [hmode]
  simp only [Option.getD_some]
  rw [if_true]
  set c := clamp ((metric.change - ranges.minChange) / jsOr (ranges.maxChange - ranges.minChange) 1) 0 1 with hc
  have h0 : 0 ≤ c := le_clamp _ 0 1
  have h1 : c ≤ 1 := clamp_le _ 0 1 (by norm_num)
  rw [MIN_RADIUS, MAX_RADIUS]
  constructor <;> nlinarith

theorem buildRadiusAt_bounds (coins : List CoinMarket) (options : BuildBubbleOptions)
    (i : ℕ) (hi : i < coins.length) :
    MIN_RADIUS * 0.65 ≤ buildRadiusAt coins options i ∧
    buildRadiusAt coins options i ≤ MAX_RADIUS * 1.55 := by
  unfold buildRadiusAt
  simp only
  by_cases hsm : options.sizeMode.getD SizeMode.cap = SizeMode.volume ∨
      options.sizeMode.getD SizeMode.cap = SizeMode.cap
  · -- cap / volume: the rank chain
    rw [buildRadiusByIndex, if_pos hsm]
    dsimp only
    set sorted := rankSorted (computeMetrics coins (options.timeframe.getD Timeframe.h24))
      (options.sizeMode.getD SizeMode.cap) with hsorted
    have hgs := rankGlobalScale_bounds sorted
    have hmem := chainRadii_mem_bounds coins.length sorted (rankGlobalScale sorted)
      hgs.1 hgs.2
    have hlen : (chainRadii coins.length sorted (rankGlobalScale sorted)).length =
      coins.length := chainRadii_length _ _ _
    rw [List.getD_eq_getElem?_getD]
    cases hg : (chainRadii coins.length sorted (rankGlobalScale sorted))[i]? with
    | none =>
      -- the access is always in range: `i < coins.length = length`
      rw [List.getElem?_eq_none_iff, hlen] at hg
      omega
    | some v => simpa using hmem v (List.getElem?_mem hg)
  · -- percent
    rw [buildRadiusByIndex, if_neg hsm]
    have hmode : options.sizeMode.getD SizeMode.cap = SizeMode.percent := by
      cases h : options.sizeMode.getD SizeMode.cap <;> simp_all
    have hb := calcRadius_percent_bounds
      ((computeMetrics coins (options.timeframe.getD Timeframe.h24)).getD i defaultMetric)
      (buildRanges (computeMetrics coins (options.timeframe.getD Timeframe.h24))
        (options.sizeMode.getD SizeMode.cap))
      (by
        rw [show (buildRanges (computeMetrics coins (options.timeframe.getD Timeframe.h24))
          (options.sizeMode.getD SizeMode.cap)).mode =
            some (options.sizeMode.getD SizeMode.cap) from rfl, hmode])
    constructor
    · refine le_trans ?_ hb.1
      rw [MIN_RADIUS]; norm_num
    · refine le_trans hb.2 ?_
      rw [MAX_RADIUS]; norm_num

/-! ## Concrete sample inputs (used by witnesses and counterexamples) -/

def coinA : CoinMarket :=
  { id := "a", symbol := "a", name := "A", market_cap := some 100, total_volume := some 50 }

def coinB : CoinMarket :=
  { id := "b", symbol := "b", name := "B", market_cap := some 1, total_volume := some 2 }

def optsCap : BuildBubbleOptions :=
  { sizeMode := some SizeMode.cap, width := some 400, height := some 400 }

def optsEmpty : BuildBubbleOptions := {}

noncomputable def rngHalf : ℕ → ℝ := fun _ => 0.5

/-! ## Claim theorems -/

/-- **C2.** For every instrument batch and every sizing mode, every node
returned by the build operation has radius in the closed interval
`[MIN_RADIUS * 0.65, MAX_RADIUS * 1.55]` (`[11.7, 83.7]`). -/
theorem c2_radius_bounds (coins : List CoinMarket) (options : BuildBubbleOptions)
    (rng : ℕ → ℝ) (node : BubbleNode)
    (hmem : node ∈ buildBubbleNodes coins options rng) :
    MIN_RADIUS * 0.65 ≤ node.radius ∧ node.radius ≤ MAX_RADIUS * 1.55 := by
  obtain ⟨i, hilt, hget⟩ := List.getElem_of_mem hmem
  have hlen := length_buildBubbleNodes coins options rng
  have hne : coins.length ≠ 0 := by omega
  have hi : i < coins.length := by omega
  have hgetD : (buildBubbleNodes coins options rng).getD i defaultNode = node := by
    rw [List.getD_eq_getElem?_getD, List.getElem?_eq_getElem hilt]
    simpa using hget
  have hcv := coreView_getD_of_map_eq _ _ (buildBubbleNodes_coreView coins options rng hne) i
  have hfields := coreView_eq_fields hcv
  have hpre := buildPreNodes_fields coins options i hi
  rw [hgetD] at hfields
  have hrad : node.radius = buildRadiusAt coins options i := by
    rw [hfields.2.1, hpre.2.1]
  rw [hrad]
  exact buildRadiusAt_bounds coins options i hi

theorem c2_witness :
    MIN_RADIUS * 0.65 ≤ ((buildBubbleNodes [coinA] optsCap rngHalf).getD 0 defaultNode).radius ∧
    ((buildBubbleNodes [coinA] optsCap rngHalf).getD 0 defaultNode).radius ≤
      MAX_RADIUS * 1.55 := by
  have hlen : (buildBubbleNodes [coinA] optsCap rngHalf).length = 1 := by
    rw [length_buildBubbleNodes]
    rfl
  have hmem : (buildBubbleNodes [coinA] optsCap rngHalf).getD 0 defaultNode ∈
      buildBubbleNodes [coinA] optsCap rngHalf := by
    rw [List.getD_eq_getElem?_getD, List.getElem?_eq_getElem (by omega)]
    simp only [Option.getD_some]
    exact List.getElem_mem _
  exact c2_radius_bounds [coinA] optsCap rngHalf _ hmem

/-- **C8.** The build operation returns exactly one node per input
instrument, in the same order (the node at index `i` references the
instrument at index `i`), and `build([])` returns `[]`. -/
theorem c8_one_node_per_instrument (coins : List CoinMarket)
    (options : BuildBubbleOptions) (rng : ℕ → ℝ) :
    (buildBubbleNodes coins options rng).length = coins.length ∧
    (∀ i : ℕ, ((buildBubbleNodes coins options rng)[i]?).map (fun n => n.coin) =
      coins[i]?) ∧
    buildBubbleNodes [] options rng = [] := by
  refine ⟨length_buildBubbleNodes coins options rng, ?_, by rw [buildBubbleNodes]; rfl⟩
  intro i
  by_cases hne : coins.length = 0
  · rw [List.length_eq_zero] at hne
    subst hne
    rw [show buildBubbleNodes [] options rng = [] from by rw [buildBubbleNodes]; rfl]
    rfl
  · have hlenb := length_buildBubbleNodes coins options rng
    by_cases hi : i < coins.length
    · have hcv := coreView_getD_of_map_eq _ _
        (buildBubbleNodes_coreView coins options rng hne) i
      have hfields := coreView_eq_fields hcv
      have hpre := buildPreNodes_fields coins options i hi
      rw [List.getElem?_eq_getElem (by omega), List.getElem?_eq_getElem hi]
      simp only [Option.map_some']
      have h1 : ((buildBubbleNodes coins options rng).getD i defaultNode).coin =
          coins.getD i defaultCoin := by rw [hfields.1, hpre.1]
      rw [List.getD_eq_getElem?_getD,
        List.getElem?_eq_getElem (by omega : i < (buildBubbleNodes coins options rng).length)] at h1
      rw [List.getD_eq_getElem?_getD, List.getElem?_eq_getElem hi] at h1
      simpa using h1
    · rw [List.getElem?_eq_none (by omega), List.getElem?_eq_none (by omega)]
      rfl

/-- **C10.** For every non-empty instrument list, the build operation
populates 2D layout state on every returned node regardless of the
width/height options — including when they are omitted, zero or
negative — because both dimensions are floored to 200 before the
pack-layout check, so the no-layout branch is unreachable. -/
theorem c10_layout_always_populated (coins : List CoinMarket)
    (options : BuildBubbleOptions) (rng : ℕ → ℝ) (hne : coins ≠ [])
    (node : BubbleNode) (hmem : node ∈ buildBubbleNodes coins options rng) :
    node.layout2d.isSome := by
  have hlen : coins.length ≠ 0 := fun h => hne (List.length_eq_zero.mp h)
  rw [buildBubbleNodes, if_neg hlen] at hmem
  dsimp only at hmem
  have hw : max 200 (options.width.getD 0) ≠ 0 := by
    have h2 : (200 : ℝ) ≤ max 200 (options.width.getD 0) := le_max_left _ _
    intro h
    rw [h] at h2
    norm_num at h2
  have hh : max 200 (options.height.getD 0) ≠ 0 := by
    have h2 : (200 : ℝ) ≤ max 200 (options.height.getD 0) := le_max_left _ _
    intro h
    rw [h] at h2
    norm_num at h2
  rw [if_pos ⟨hw, hh⟩] at hmem
  exact isSome_resolveInitialOverlaps _ _ _
    (fun m hm => isSome_compute2DLayout _ _ _ rng m hm) node hmem

theorem c10_witness :
    (((buildBubbleNodes [coinA] optsEmpty rngHalf).getD 0 defaultNode).layout2d).isSome := by
  have hlen : (buildBubbleNodes [coinA] optsEmpty rngHalf).length = 1 := by
    rw [length_buildBubbleNodes]
    rfl
  have hmem : (buildBubbleNodes [coinA] optsEmpty rngHalf).getD 0 defaultNode ∈
      buildBubbleNodes [coinA] optsEmpty rngHalf := by
    rw [List.getD_eq_getElem?_getD, List.getElem?_eq_getElem (by omega)]
    simp only [Option.getD_some]
    exact List.getElem_mem _
  exact c10_layout_always_populated [coinA] optsEmpty rngHalf (by simp) _ hmem

/-! ## Rank-sorted list facts (for C3) -/

theorem rankSorted_perm (metrics : List BubbleMetric) (sizeMode : SizeMode) :
    (rankSorted metrics sizeMode).Perm
      (metrics.enum.map fun p => (p.1, rawSizeVal sizeMode p.2)) :=
  List.perm_insertionSort byValDesc _

theorem rankSorted_sorted (metrics : List BubbleMetric) (sizeMode : SizeMode) :
    List.Sorted byValDesc (rankSorted metrics sizeMode) :=
  List.sorted_insertionSort byValDesc _

theorem rankSorted_fst_nodup (metrics : List BubbleMetric) (sizeMode : SizeMode) :
    ((rankSorted metrics sizeMode).map Prod.fst).Nodup := by
  have hperm : ((rankSorted metrics sizeMode).map Prod.fst).Perm
      ((metrics.enum.map fun p => (p.1, rawSizeVal sizeMode p.2)).map Prod.fst) :=
    (rankSorted_perm metrics sizeMode).map _
  refine hperm.symm.nodup ?_
  rw [List.map_map]
  have hfst : (Prod.fst ∘ fun p : ℕ × BubbleMetric => (p.1, rawSizeVal sizeMode p.2)) =
      Prod.fst := rfl
  rw [hfst, List.enum_map_fst]
  exact List.nodup_range _

theorem rankSorted_fst_lt (metrics : List BubbleMetric) (sizeMode : SizeMode)
    (q : ℕ × ℝ) (hq : q ∈ rankSorted metrics sizeMode) : q.1 < metrics.length := by
  have hmem : q ∈ metrics.enum.map fun p => (p.1, rawSizeVal sizeMode p.2) :=
    ((rankSorted_perm metrics sizeMode).mem_iff).mp hq
  rcases List.mem_map.mp hmem with ⟨p, hp, hpq⟩
  rw [List.mem_enum_iff_getElem?] at hp
  have hlt : p.1 < metrics.length := by
    by_contra hge
    rw [List.getElem?_eq_none (by omega)] at hp
    exact Option.noConfusion hp
  rw [← hpq]
  exact hlt

theorem rankSorted_mem_of_lt (metrics : List BubbleMetric) (sizeMode : SizeMode)
    (i : ℕ) (hi : i < metrics.length) :
    (i, rawSizeVal sizeMode (metrics.getD i defaultMetric)) ∈ rankSorted metrics sizeMode := by
  rw [(rankSorted_perm metrics sizeMode).mem_iff]
  refine List.mem_map.mpr ⟨(i, metrics.getD i defaultMetric), ?_, rfl⟩
  rw [List.mem_enum_iff_getElem?]
  rw [List.getD_eq_getElem?_getD, List.getElem?_eq_getElem hi]
  simp

/-- **C3.** In capitalization mode and in volume mode, if the raw sizing
value (cap or volume, floored at 1) of instrument `i` is strictly
greater than that of instrument `j`, then the radius the build assigns
to `i` is at least the radius assigned to `j`: the sequential
rank-based chain, the global scale multiplication, and the final floors
all preserve rank order. -/
theorem c3_rank_order (coins : List CoinMarket) (options : BuildBubbleOptions)
    (rng : ℕ → ℝ)
    (hmode : options.sizeMode.getD SizeMode.cap = SizeMode.cap ∨
             options.sizeMode.getD SizeMode.cap = SizeMode.volume)
    (i j : ℕ) (hi : i < coins.length) (hj : j < coins.length)
    (hraw : rawSizeVal (options.sizeMode.getD SizeMode.cap)
        ((computeMetrics coins (options.timeframe.getD Timeframe.h24)).getD j defaultMetric) <
      rawSizeVal (options.sizeMode.getD SizeMode.cap)
        ((computeMetrics coins (options.timeframe.getD Timeframe.h24)).getD i defaultMetric)) :
    ((buildBubbleNodes coins options rng).getD j defaultNode).radius ≤
    ((buildBubbleNodes coins options rng).getD i defaultNode).radius := by
  have hne : coins.length ≠ 0 := by omega
  set sm := options.sizeMode.getD SizeMode.cap with hsm
  set metrics := computeMetrics coins (options.timeframe.getD Timeframe.h24) with hmet
  have hmetlen : metrics.length = coins.length := by
    rw [hmet]; unfold computeMetrics; rw [List.length_map]
  -- reduce the output radii to `buildRadiusAt`
  have hradAt : ∀ k, k < coins.length →
      ((buildBubbleNodes coins options rng).getD k defaultNode).radius =
        buildRadiusAt coins options k := by
    intro k hk
    have hcv := coreView_getD_of_map_eq _ _
      (buildBubbleNodes_coreView coins options rng hne) k
    have hfields := coreView_eq_fields hcv
    have hpre := buildPreNodes_fields coins options k hk
    rw [hfields.2.1, hpre.2.1]
  rw [hradAt i hi, hradAt j hj]
  -- in cap/volume mode the radius comes from the rank chain
  have hcond : sm = SizeMode.volume ∨ sm = SizeMode.cap := hmode.symm
  have hradchain : ∀ k, buildRadiusAt coins options k =
      (chainRadii coins.length (rankSorted metrics sm)
        (rankGlobalScale (rankSorted metrics sm))).getD k 0 := by
    intro k
    unfold buildRadiusAt
    dsimp only
    rw [← hmet, ← hsm, buildRadiusByIndex, if_pos hcond]
  rw [hradchain i, hradchain j]
  set sorted := rankSorted metrics sm with hsorted
  set vi := rawSizeVal sm (metrics.getD i defaultMetric) with hvi
  set vj := rawSizeVal sm (metrics.getD j defaultMetric) with hvj
  -- positions of i and j in the sorted rank list
  obtain ⟨ki, hki⟩ := List.mem_iff_get.mp
    (rankSorted_mem_of_lt metrics sm i (by omega))
  obtain ⟨kj, hkj⟩ := List.mem_iff_get.mp
    (rankSorted_mem_of_lt metrics sm j (by omega))
  have hsortedp : List.Pairwise byValDesc sorted := rankSorted_sorted metrics sm
  have hkinej : (ki : ℕ) ≠ (kj : ℕ) := by
    intro heq
    have : sorted.get ki = sorted.get kj := by
      congr 1
      exact Fin.ext heq
    rw [hki, hkj] at this
    have hveq : vi = vj := congrArg Prod.snd this
    rw [hveq] at hraw
    exact lt_irrefl _ hraw
  have hkij : (ki : ℕ) < (kj : ℕ) := by
    rcases lt_or_ge (ki : ℕ) (kj : ℕ) with hlt | hge
    · exact hlt
    · exfalso
      have hgt : (kj : ℕ) < (ki : ℕ) := by omega
      have := (List.pairwise_iff_getElem.mp hsortedp) kj ki kj.isLt ki.isLt hgt
      have hgets : byValDesc (sorted.get kj) (sorted.get ki) := by
        simpa using this
      rw [hki, hkj] at hgets
      unfold byValDesc at hgets
      simp only at hgets
      exact absurd (lt_of_lt_of_le hraw hgets) (lt_irrefl vj)
  -- apply the chain order lemma
  have hgs := rankGlobalScale_bounds sorted
  have horder := chainRadii_order coins.length sorted (rankGlobalScale sorted)
    (by linarith [hgs.1]) (rankSorted_fst_nodup metrics sm)
    (fun q hq => by
      have := rankSorted_fst_lt metrics sm q hq
      omega)
    ki kj ki.isLt kj.isLt hkij
  rw [hki, hkj] at horder
  simpa using horder

theorem c3_witness :
    ((buildBubbleNodes [coinA, coinB] optsCap rngHalf).getD 1 defaultNode).radius ≤
    ((buildBubbleNodes [coinA, coinB] optsCap rngHalf).getD 0 defaultNode).radius := by
  refine c3_rank_order [coinA, coinB] optsCap rngHalf (Or.inl rfl) 0 1
    (by norm_num) (by norm_num) ?_
  simp only [computeMetrics, List.map_cons, List.map_nil, List.getD_cons_succ,
    List.getD_cons_zero, rawSizeVal, coinA, coinB, optsCap, Option.getD_some]
  have hcnv : ¬(SizeMode.cap = SizeMode.volume) := by decide
  rw [if_neg hcnv, if_neg hcnv]
  norm_num [max_def]

/-! ## Identical-percent batches (for C6) -/

theorem listMin_const (l : List ℝ) (c : ℝ) (hne : l ≠ []) (h : ∀ x ∈ l, x = c) :
    listMin l = c := by
  cases l with
  | nil => exact absurd rfl hne
  | cons x xs =>
    unfold listMin
    rw [h x (List.mem_cons_self x xs)]
    refine foldl_fixed min c xs fun b hb => ?_
    rw [h b (List.mem_cons_of_mem x hb), min_self]

theorem listMax_const (l : List ℝ) (c : ℝ) (hne : l ≠ []) (h : ∀ x ∈ l, x = c) :
    listMax l = c := by
  cases l with
  | nil => exact absurd rfl hne
  | cons x xs =>
    unfold listMax
    rw [h x (List.mem_cons_self x xs)]
    refine foldl_fixed max c xs fun b hb => ?_
    rw [h b (List.mem_cons_of_mem x hb), max_self]

/-- **C6.** In percent-change mode, for every batch whose selected
absolute percent-change values are all the identical value `c`, every
output node's radius equals exactly `MIN_RADIUS`; the zero min-max
range never divides by zero because the `|| 1` guard treats a zero
range as a range of 1. -/
theorem c6_percent_identical (coins : List CoinMarket) (options : BuildBubbleOptions)
    (rng : ℕ → ℝ) (c : ℝ)
    (hmode : options.sizeMode.getD SizeMode.cap = SizeMode.percent)
    (hall : ∀ coin ∈ coins,
      |selectChangeByTimeframe coin (options.timeframe.getD Timeframe.h24)| = c)
    (node : BubbleNode) (hmem : node ∈ buildBubbleNodes coins options rng) :
    node.radius = MIN_RADIUS := by
  obtain ⟨i, hilt, hget⟩ := List.getElem_of_mem hmem
  have hlen := length_buildBubbleNodes coins options rng
  have hne : coins.length ≠ 0 := by omega
  have hi : i < coins.length := by omega
  have hgetD : (buildBubbleNodes coins options rng).getD i defaultNode = node := by
    rw [List.getD_eq_getElem?_getD, List.getElem?_eq_getElem hilt]
    simpa using hget
  have hcv := coreView_getD_of_map_eq _ _ (buildBubbleNodes_coreView coins options rng hne) i
  have hfields := coreView_eq_fields hcv
  have hpre := buildPreNodes_fields coins options i hi
  rw [hgetD] at hfields
  rw [hfields.2.1, hpre.2.1]
  set tf := options.timeframe.getD Timeframe.h24 with htf
  set metrics := computeMetrics coins tf with hmet
  have hmetlen : metrics.length = coins.length := by
    rw [hmet]; unfold computeMetrics; rw [List.length_map]
  -- every metric's change equals c
  have hchg : ∀ m ∈ metrics, m.change = c := by
    intro m hm
    rw [hmet] at hm
    unfold computeMetrics at hm
    rcases List.mem_map.mp hm with ⟨coin, hcoin, hmk⟩
    rw [← hmk]
    exact hall coin hcoin
  -- percent mode: radiusByIndex is none
  have hnone : buildRadiusByIndex coins.length metrics (options.sizeMode.getD SizeMode.cap) =
      none := by
    rw [buildRadiusByIndex, if_neg]
    rw [hmode]
    intro hcontra
    rcases hcontra with h | h <;> exact SizeMode.noConfusion h
  unfold buildRadiusAt
  dsimp only
  rw [← htf, ← hmet, hnone]
  -- the metric at index i has change c
  have hmi : (metrics.getD i defaultMetric).change = c := by
    refine hchg _ ?_
    rw [List.getD_eq_getElem?_getD, List.getElem?_eq_getElem (by omega)]
    simp only [Option.getD_some]
    exact List.getElem_mem _
  -- the changes list is the constant c
  have hchanges : ∀ x ∈ metrics.map (fun m => m.change), x = c := by
    intro x hx
    rcases List.mem_map.mp hx with ⟨m, hm, hxm⟩
    rw [← hxm]
    exact hchg m hm
  have hchne : metrics.map (fun m => m.change) ≠ [] := by
    intro hnil
    have := congrArg List.length hnil
    rw [List.length_map, hmetlen] at this
    exact hne this
  have hminc : (buildRanges metrics (options.sizeMode.getD SizeMode.cap)).minChange = c := by
    unfold buildRanges
    dsimp only
    rw [if_pos (by
      rw [List.length_map, hmetlen]
      exact hne)]
    exact listMin_const _ c hchne hchanges
  have hmaxc : (buildRanges metrics (options.sizeMode.getD SizeMode.cap)).maxChange = c := by
    unfold buildRanges
    dsimp only
    rw [if_pos (by
      rw [List.length_map, hmetlen]
      exact hne)]
    exact listMax_const _ c hchne hchanges
  have hmodeR : (buildRanges metrics (options.sizeMode.getD SizeMode.cap)).mode =
      some SizeMode.percent := by
    rw [show (buildRanges metrics (options.sizeMode.getD SizeMode.cap)).mode =
      some (options.sizeMode.getD SizeMode.cap) from rfl, hmode]
  -- evaluate the percent branch: norm is 0 / 1 = 0
  unfold calcRadius
  rw [hmodeR]
  simp only [Option.getD_some]
  rw [if_true]
  rw [hmi, hminc, hmaxc, sub_self]
  rw [show jsOr 0 1 = (1 : ℝ) from by unfold jsOr; rw [if_pos rfl]]
  rw [zero_div]
  rw [show clamp 0 0 1 = (0 : ℝ) from by unfold clamp; norm_num]
  ring

def optsPercent : BuildBubbleOptions :=
  { sizeMode := some SizeMode.percent, width := some 400, height := some 400 }

theorem c6_witness :
    ((buildBubbleNodes [coinA, coinB] optsPercent rngHalf).getD 0 defaultNode).radius =
      MIN_RADIUS := by
  have hlen : (buildBubbleNodes [coinA, coinB] optsPercent rngHalf).length = 2 := by
    rw [length_buildBubbleNodes]
    rfl
  have hmem : (buildBubbleNodes [coinA, coinB] optsPercent rngHalf).getD 0 defaultNode ∈
      buildBubbleNodes [coinA, coinB] optsPercent rngHalf := by
    rw [List.getD_eq_getElem?_getD, List.getElem?_eq_getElem (by omega)]
    simp only [Option.getD_some]
    exact List.getElem_mem _
  refine c6_percent_identical [coinA, coinB] optsPercent rngHalf 0 rfl ?_ _ hmem
  intro coin hcoin
  rcases List.mem_cons.mp hcoin with h | h
  · subst h
    simp [coinA, selectChangeByTimeframe, optsPercent]
  · rcases List.mem_cons.mp h with h2 | h2
    · subst h2
      simp [coinB, selectChangeByTimeframe, optsPercent]
    · simp at h2

/-- **C7.** For every node that already carries 2D layout state when
Pack Layout runs, `compute2DLayout` recomputes only its `scale` field:
position `(x, y)`, velocity `(vx, vy)` and the wander parameters
`seed`, `t` are left exactly unchanged. -/
theorem c7_pack_preserves_layout (nodes : List BubbleNode) (width height : ℝ)
    (rng : ℕ → ℝ) (i : ℕ) (n : BubbleNode) (l : Layout2DState)
    (hget : nodes[i]? = some n) (hl : n.layout2d = some l) :
    ∃ s, (compute2DLayout nodes width height rng)[i]? =
      some { n with layout2d := some { l with scale := s } } := by
  have hlen : nodes.length ≠ 0 := by
    intro h0
    rw [List.length_eq_zero] at h0
    subst h0
    simp at hget
  unfold compute2DLayout
  rw [if_neg hlen]
  dsimp only
  have henum : (i, n) ∈ nodes.enum := List.mem_enum_iff_getElem?.mpr hget
  have hsortmem : (i, n) ∈ List.insertionSort byRadiusDesc nodes.enum := by
    rw [(List.perm_insertionSort byRadiusDesc nodes.enum).mem_iff]
    exact henum
  have hnd : ((List.insertionSort byRadiusDesc nodes.enum).map Prod.fst).Nodup := by
    have hperm := (List.perm_insertionSort byRadiusDesc nodes.enum).map Prod.fst
    refine hperm.symm.nodup ?_
    rw [List.enum_map_fst]
    exact List.nodup_range _
  obtain ⟨ctr, hctr⟩ := packAssign_assigned
    (packAreaScale nodes (max 200 width) (max 200 height))
    (max 200 width) (max 200 height) rng _ 0 (fun _ => none) i n hnd hsortmem
  refine ⟨(0.75 + n.sizeFactor * 0.45) *
    packAreaScale nodes (max 200 width) (max 200 height), ?_⟩
  rw [List.getElem?_map, List.getElem?_enum, hget]
  simp only [Option.map_some']
  rw [hctr]
  unfold packUpdate
  rw [hl]

noncomputable def layoutSample : Layout2DState :=
  { x := 100, y := 120, scale := 1, vx := some 3, vy := some 4,
    seed := some 5, t := some 6 }

noncomputable def nodeWithLayout : BubbleNode :=
  { coin := coinA, radius := 20, sizeFactor := 0.5, x := 0, y := 0, z := 0, depth := 0,
    x2d := 0, y2d := 0, layout2d := some layoutSample }

theorem c7_witness :
    ∃ s, (compute2DLayout [nodeWithLayout] 400 300 rngHalf)[0]? =
      some { nodeWithLayout with layout2d := some { layoutSample with scale := s } } :=
  c7_pack_preserves_layout [nodeWithLayout] 400 300 rngHalf 0 nodeWithLayout
    layoutSample rfl rfl

/-- **C9.** For every overlapping pair processed by the pairwise
collision phase of the physics step (and by each relaxation pass of the
overlap resolver): the symmetric half-overlap positional push leaves
the midpoint of the two centers unchanged (the coordinate sums are
preserved), and the collision impulse applies equal-and-opposite
velocity changes, leaving the vector sum of the two velocities
unchanged (the resolver touches no velocity at all). -/
theorem c9_pair_symmetry (a b : BubbleNode) (pa pb : Layout2DState)
    (ha : a.layout2d = some pa) (hb : b.layout2d = some pb)
    (hov : (pb.x - pa.x) * (pb.x - pa.x) + (pb.y - pa.y) * (pb.y - pa.y) <
      (a.radius * pa.scale + b.radius * pb.scale + 8) *
      (a.radius * pa.scale + b.radius * pb.scale + 8))
    (hpos : 0.0001 < (pb.x - pa.x) * (pb.x - pa.x) + (pb.y - pa.y) * (pb.y - pa.y)) :
    (∃ qa qb, (physicsPairStep a b).1.layout2d = some qa ∧
      (physicsPairStep a b).2.layout2d = some qb ∧
      qa.x + qb.x = pa.x + pb.x ∧ qa.y + qb.y = pa.y + pb.y ∧
      (qa.vx).getD 0 + (qb.vx).getD 0 = (pa.vx).getD 0 + (pb.vx).getD 0 ∧
      (qa.vy).getD 0 + (qb.vy).getD 0 = (pa.vy).getD 0 + (pb.vy).getD 0) ∧
    (∃ ra rb, (resolvePairStep a b).1.layout2d = some ra ∧
      (resolvePairStep a b).2.layout2d = some rb ∧
      ra.x + rb.x = pa.x + pb.x ∧ ra.y + rb.y = pa.y + pb.y ∧
      ra.vx = pa.vx ∧ rb.vx = pb.vx ∧ ra.vy = pa.vy ∧ rb.vy = pb.vy) := by
  constructor
  · unfold physicsPairStep
    rw [ha, hb]
    dsimp only
    rw [if_pos ⟨hov, hpos⟩]
    split
    · refine ⟨_, _, rfl, rfl, ?_, ?_, ?_, ?_⟩ <;>
        simp only [Option.getD_some] <;> ring
    · refine ⟨_, _, rfl, rfl, ?_, ?_, ?_, ?_⟩ <;>
        simp only [Option.getD_some] <;> ring
  · unfold resolvePairStep
    rw [ha, hb]
    dsimp only
    rw [if_pos ⟨hov, hpos⟩]
    exact ⟨_, _, rfl, rfl, by ring, by ring, rfl, rfl, rfl, rfl⟩

noncomputable def nodeP1 : BubbleNode :=
  { coin := coinA, radius := 10, sizeFactor := 0.5, x := 0, y := 0, z := 0, depth := 0,
    x2d := 0, y2d := 0,
    layout2d := some { x := 100, y := 100, scale := 1, vx := some 5, vy := some 0 } }

noncomputable def nodeP2 : BubbleNode :=
  { coin := coinB, radius := 10, sizeFactor := 0.5, x := 0, y := 0, z := 0, depth := 0,
    x2d := 0, y2d := 0,
    layout2d := some { x := 103, y := 104, scale := 1, vx := some (-5), vy := some 0 } }

theorem c9_witness :
    (∃ qa qb, (physicsPairStep nodeP1 nodeP2).1.layout2d = some qa ∧
      (physicsPairStep nodeP1 nodeP2).2.layout2d = some qb ∧
      qa.x + qb.x = 100 + 103 ∧ qa.y + qb.y = 100 + 104 ∧
      (qa.vx).getD 0 + (qb.vx).getD 0 = (5 : ℝ) + -5 ∧
      (qa.vy).getD 0 + (qb.vy).getD 0 = (0 : ℝ) + 0) ∧
    (∃ ra rb, (resolvePairStep nodeP1 nodeP2).1.layout2d = some ra ∧
      (resolvePairStep nodeP1 nodeP2).2.layout2d = some rb ∧
      ra.x + rb.x = 100 + 103 ∧ ra.y + rb.y = 100 + 104 ∧
      ra.vx = some 5 ∧ rb.vx = some (-5) ∧ ra.vy = some 0 ∧ rb.vy = some 0) := by
  have h := c9_pair_symmetry nodeP1 nodeP2
    { x := 100, y := 100, scale := 1, vx := some 5, vy := some 0 }
    { x := 103, y := 104, scale := 1, vx := some (-5), vy := some 0 }
    rfl rfl (by norm_num [nodeP1, nodeP2]) (by norm_num)
  simpa [nodeP1, nodeP2] using h

/-! ## The physics step at `dt = 0` (for C4) -/

/-- A node (with layout state) lies within the viewport bounds used by
the stepper's boundary check. -/
def inBounds (w h : ℝ) (node : BubbleNode) : Prop :=
  ∀ p, node.layout2d = some p →
    12 + node.radius * p.scale ≤ p.x ∧ p.x ≤ w - 12 - node.radius * p.scale ∧
    12 + node.radius * p.scale ≤ p.y ∧ p.y ≤ h - 12 - node.radius * p.scale

/-- Two nodes do not trigger the pairwise-collision branch. -/
def noOverlap (a b : BubbleNode) : Prop :=
  ∀ pa pb, a.layout2d = some pa → b.layout2d = some pb →
    ¬((pb.x - pa.x) * (pb.x - pa.x) + (pb.y - pa.y) * (pb.y - pa.y) <
        (a.radius * pa.scale + b.radius * pb.scale + 8) *
        (a.radius * pa.scale + b.radius * pb.scale + 8) ∧
      0.0001 < (pb.x - pa.x) * (pb.x - pa.x) + (pb.y - pa.y) * (pb.y - pa.y))

/-- What the claim says a `dt = 0` step does to one node: position and
wander clock unchanged, velocity multiplied by the per-frame damping
factor `0.992` only. -/
noncomputable def wanderDampOnly (node : BubbleNode) : BubbleNode :=
  match node.layout2d with
  | none => node
  | some p =>
    { node with layout2d := some { p with
        t := some ((p.t).getD 0),
        vx := some ((p.vx).getD 0 * 0.992),
        vy := some ((p.vy).getD 0 * 0.992) } }

theorem integrateNode_dt0 (w h : ℝ) (node : BubbleNode) (hb : inBounds w h node) :
    integrateNode w h 0 node = node := by
  cases hl : node.layout2d with
  | none => unfold integrateNode; rw [hl]
  | some p =>
    obtain ⟨h1, h2, h3, h4⟩ := hb p hl
    unfold integrateNode
    rw [hl]
    dsimp only
    simp only [mul_zero, add_zero]
    rw [if_neg (not_lt.mpr h1), if_neg (not_lt.mpr h2),
      if_neg (not_lt.mpr h3), if_neg (not_lt.mpr h4)]
    show ({ node with layout2d := some p } : BubbleNode) = node
    rw [← hl]

theorem physicsPairStep_id (a b : BubbleNode) (hno : noOverlap a b) :
    physicsPairStep a b = (a, b) := by
  unfold physicsPairStep
  cases hpa : a.layout2d with
  | none => rfl
  | some pa =>
    cases hpb : b.layout2d with
    | none => rfl
    | some pb =>
      dsimp only
      rw [if_neg (hno pa pb hpa hpb)]

theorem pairFold_id (ns : List BubbleNode)
    (h : ∀ (i j : ℕ), i < j → ∀ a b, ns[i]? = some a → ns[j]? = some b → noOverlap a b) :
    (pairIndices ns.length).foldl (applyPair physicsPairStep) ns = ns := by
  refine foldl_fixed _ _ _ fun ij hij => ?_
  obtain ⟨hlt, hjn⟩ := mem_pairIndices hij
  unfold applyPair
  cases hga : ns[ij.1]? with
  | none => rfl
  | some a =>
    cases hgb : ns[ij.2]? with
    | none => rfl
    | some b =>
      dsimp only
      rw [physicsPairStep_id a b (h ij.1 ij.2 hlt a b hga hgb)]
      rw [list_set_self ns ij.1 a hga, list_set_self ns ij.2 b hgb]

theorem wanderNode_dt0 (ra rb : ℝ) (node : BubbleNode) :
    wanderNode 0 ra rb node = wanderDampOnly node := by
  unfold wanderNode wanderDampOnly
  cases hl : node.layout2d with
  | none => rfl
  | some p =>
    dsimp only
    simp only [mul_zero, add_zero]

theorem wanderAll_dt0 (rng : ℕ → ℝ) (ctr : ℕ) (ns : List BubbleNode) :
    wanderAll 0 rng ctr ns = ns.map wanderDampOnly := by
  induction ns generalizing ctr with
  | nil => rfl
  | cons n rest ih =>
    rw [List.map_cons]
    unfold wanderAll
    cases hl : n.layout2d with
    | none =>
      dsimp only
      rw [ih]
      congr 1
      unfold wanderDampOnly
      rw [hl]
    | some p =>
      dsimp only
      rw [ih, wanderNode_dt0]

/-- **C4 (amended).** For every node list whose nodes all lie within the
(floored) viewport bounds and which contains no overlapping pair,
stepping with `dt = 0` leaves every node's position (and wander clock)
unchanged and changes velocities only by the per-frame wander-damping
factor `0.992`, which is applied unconditionally rather than scaled by
`dt`; all `dt`-scaled wander and jitter contributions are zero. -/
theorem c4_step_dt0 (nodes : List BubbleNode) (width height : ℝ) (rng : ℕ → ℝ)
    (hb : ∀ node ∈ nodes, inBounds (max width 200) (max height 200) node)
    (hno : ∀ (i j : ℕ), i < j → ∀ a b, nodes[i]? = some a → nodes[j]? = some b →
      noOverlap a b) :
    update2DPhysics nodes width height 0 rng = nodes.map wanderDampOnly := by
  unfold update2DPhysics
  dsimp only
  have hmap : nodes.map (integrateNode (max width 200) (max height 200) 0) = nodes := by
    rw [List.map_congr_left fun n hn => integrateNode_dt0 _ _ n (hb n hn)]
    exact List.map_id' nodes
  rw [hmap, pairFold_id nodes hno, wanderAll_dt0]

noncomputable def nodeC1 : BubbleNode :=
  { coin := coinA, radius := 20, sizeFactor := 0.5, x := 0, y := 0, z := 0, depth := 0,
    x2d := 0, y2d := 0,
    layout2d := some { x := 100, y := 100, scale := 1, vx := some 1, vy := some 2,
                       seed := some 0, t := some 0 } }

theorem c4_witness :
    update2DPhysics [nodeC1] 400 400 0 rngHalf = [nodeC1].map wanderDampOnly := by
  refine c4_step_dt0 [nodeC1] 400 400 rngHalf ?_ ?_
  · intro node hmem
    rcases List.mem_cons.mp hmem with h | h
    · subst h
      intro p hp
      have hp' : ({ x := 100, y := 100, scale := 1, vx := some 1, vy := some 2,
                     seed := some 0, t := some 0 } : Layout2DState) = p :=
        Option.some_inj.mp hp
      rw [← hp']
      norm_num [nodeC1, max_def]
    · simp at h
  · intro i j hij a b ha hb'
    rcases Nat.lt_or_ge j 1 with hj | hj
    · omega
    · rw [List.getElem?_eq_none (by simpa using hj)] at hb'
      exact Option.noConfusion hb'

theorem pairIndices_one : pairIndices 1 = [] := rfl

noncomputable def nodeOOB : BubbleNode :=
  { coin := coinA, radius := 20, sizeFactor := 0.5, x := 0, y := 0, z := 0, depth := 0,
    x2d := 0, y2d := 0,
    layout2d := some { x := 0, y := 200, scale := 1, vx := some 0, vy := some 0,
                       seed := some 0, t := some 0 } }

theorem c4_counterexample :
    (((update2DPhysics [nodeOOB] 400 400 0 rngHalf).getD 0 defaultNode).layout2d.map
        fun q => q.x).getD 0 = 32 ∧
    ((nodeOOB.layout2d.map fun q => q.x).getD 0 = 0) ∧ (32 : ℝ) ≠ 0 := by
  refine ⟨?_, by norm_num [nodeOOB], by norm_num⟩
  have hint : integrateNode (max (400 : ℝ) 200) (max (400 : ℝ) 200) 0 nodeOOB =
      { nodeOOB with layout2d := some { x := 32, y := 200, scale := 1, vx := some 0,
                                        vy := some 0, seed := some 0, t := some 0 } } := by
    unfold integrateNode nodeOOB
    dsimp only
    rw [if_pos (by norm_num [max_def])]
    rw [if_neg (by norm_num [max_def]), if_neg (by norm_num [max_def])]
    simp only [BubbleNode.mk.injEq, Layout2DState.mk.injEq]
    norm_num
  unfold update2DPhysics
  dsimp only
  rw [List.map_cons, List.map_nil, hint]
  simp only [List.length_cons, List.length_nil, Nat.zero_add]
  rw [pairIndices_one, List.foldl_nil, wanderAll_dt0]
  simp only [List.map_cons, List.map_nil, List.getD_cons_zero]
  unfold wanderDampOnly nodeOOB
  norm_num

/-! ## One-step boundary bounce (for C5) -/

theorem wanderAll_nil (dt : ℝ) (rng : ℕ → ℝ) (c : ℕ) : wanderAll dt rng c [] = [] := rfl

theorem wanderAll_cons_some (dt : ℝ) (rng : ℕ → ℝ) (c : ℕ) (n : BubbleNode)
    (rest : List BubbleNode) (p : Layout2DState) (hl : n.layout2d = some p) :
    wanderAll dt rng c (n :: rest) =
      wanderNode dt (rng c) (rng (c + 1)) n :: wanderAll dt rng (c + 2) rest := by
  conv_lhs => rw [wanderAll]
  rw [hl]

/-- **C5 (amended).** A node sitting exactly at the right viewport
boundary with outward velocity `v > 0`, after one invocation of the
step with `dt > 0`, has its position clamped to that boundary, and the
boundary phase sets its velocity on that axis to the sign-flipped value
`-(v * 0.85)`; the final velocity is that value further multiplied by
the per-frame wander damping `0.992` plus the `dt`-scaled wander and
jitter contributions (so after the whole step it is not exactly
`-(v * 0.85)`). -/
theorem c5_boundary_bounce (node : BubbleNode) (p : Layout2DState) (w h dt v : ℝ)
    (rng : ℕ → ℝ)
    (hl : node.layout2d = some p)
    (hw : 200 ≤ w) (hh : 200 ≤ h)
    (hx : p.x = w - 12 - node.radius * p.scale)
    (hv : p.vx = some v) (hvpos : 0 < v) (hdt : 0 < dt)
    (hminmax : 12 + node.radius * p.scale ≤ w - 12 - node.radius * p.scale)
    (hy1 : 12 + node.radius * p.scale ≤ p.y + (p.vy).getD 0 * dt)
    (hy2 : p.y + (p.vy).getD 0 * dt ≤ h - 12 - node.radius * p.scale) :
    ∃ q, update2DPhysics [node] w h dt rng = [{ node with layout2d := some q }] ∧
      q.x = w - 12 - node.radius * p.scale ∧
      q.vx = some ((-(v * 0.85)) * 0.992 +
        Real.cos ((p.seed).getD 0 + ((p.t).getD 0 + dt) * 1.2) * 14 * dt +
        (rng 0 - 0.5) * 4 * dt) := by
  have hmw : max w 200 = w := max_eq_left hw
  have hmh : max h 200 = h := max_eq_left hh
  have hvdt : 0 < v * dt := mul_pos hvpos hdt
  have hint : integrateNode (max w 200) (max h 200) dt node =
      { node with layout2d := some { p with
          x := w - 12 - node.radius * p.scale,
          vx := some (-(v * 0.85)),
          y := p.y + (p.vy).getD 0 * dt,
          vy := p.vy } } := by
    unfold integrateNode
    rw [hl]
    dsimp only
    rw [hmw, hmh, hv]
    simp only [Option.getD_some]
    rw [hx]
    rw [if_neg (by nlinarith), if_pos (by nlinarith)]
    rw [if_neg (not_lt.mpr hy1), if_neg (not_lt.mpr hy2)]
    rw [abs_of_pos hvpos]
  refine ⟨{ p with
      x := w - 12 - node.radius * p.scale,
      y := p.y + (p.vy).getD 0 * dt,
      vx := some ((-(v * 0.85)) * 0.992 +
        Real.cos ((p.seed).getD 0 + ((p.t).getD 0 + dt) * 1.2) * 14 * dt +
        (rng 0 - 0.5) * 4 * dt),
      vy := some ((p.vy).getD 0 * 0.992 +
        Real.sin ((p.seed).getD 0 + ((p.t).getD 0 + dt) * 1.35) * 14 * dt +
        (rng 1 - 0.5) * 4 * dt),
      t := some ((p.t).getD 0 + dt) }, ?_, rfl, rfl⟩
  unfold update2DPhysics
  dsimp only
  rw [List.map_cons, List.map_nil, hint]
  simp only [List.length_cons, List.length_nil, Nat.zero_add]
  rw [pairIndices_one, List.foldl_nil]
  rw [wanderAll_cons_some dt rng 0 _ [] _ rfl, wanderAll_nil]
  congr 1

noncomputable def layoutB5 : Layout2DState :=
  { x := 368, y := 200, scale := 1, vx := some 10, vy := some 0,
    seed := some 0, t := some (-1) }

noncomputable def nodeB5 : BubbleNode :=
  { coin := coinA, radius := 20, sizeFactor := 0.5, x := 0, y := 0, z := 0, depth := 0,
    x2d := 0, y2d := 0, layout2d := some layoutB5 }

theorem c5_witness :
    ∃ q, update2DPhysics [nodeB5] 400 400 1 rngHalf =
        [{ nodeB5 with layout2d := some q }] ∧
      q.x = 400 - 12 - nodeB5.radius * layoutB5.scale ∧
      q.vx = some ((-(10 * 0.85)) * 0.992 +
        Real.cos ((layoutB5.seed).getD 0 + ((layoutB5.t).getD 0 + 1) * 1.2) * 14 * 1 +
        (rngHalf 0 - 0.5) * 4 * 1) :=
  c5_boundary_bounce nodeB5 layoutB5 400 400 1 10 rngHalf rfl (by norm_num) (by norm_num)
    (by norm_num [nodeB5, layoutB5]) rfl (by norm_num) (by norm_num)
    (by norm_num [nodeB5, layoutB5]) (by norm_num [nodeB5, layoutB5])
    (by norm_num [nodeB5, layoutB5])

theorem c5_counterexample :
    (((update2DPhysics [nodeB5] 400 400 1 rngHalf).getD 0 defaultNode).layout2d.map
        fun q => q.x).getD 0 = 368 ∧
    (((update2DPhysics [nodeB5] 400 400 1 rngHalf).getD 0 defaultNode).layout2d.map
        fun q => q.vx).getD none = some (5.568 : ℝ) ∧
    some (5.568 : ℝ) ≠ some (-(10 * 0.85) : ℝ) := by
  have hint : integrateNode (max (400 : ℝ) 200) (max (400 : ℝ) 200) 1 nodeB5 =
      { nodeB5 with layout2d := some { x := 368, y := 200, scale := 1, vx := some (-8.5),
                                       vy := some 0, seed := some 0, t := some (-1) } } := by
    unfold integrateNode nodeB5 layoutB5
    dsimp only
    rw [if_neg (by norm_num [max_def]), if_pos (by norm_num [max_def])]
    rw [if_neg (by norm_num [max_def]), if_neg (by norm_num [max_def])]
    simp only [BubbleNode.mk.injEq, Layout2DState.mk.injEq]
    norm_num [max_def]
  have hwand : wanderNode 1 (rngHalf 0) (rngHalf 1)
      ({ nodeB5 with layout2d := some { x := 368, y := 200, scale := 1, vx := some (-8.5),
                                        vy := some 0, seed := some 0, t := some (-1) } }) =
      { nodeB5 with layout2d := some { x := 368, y := 200, scale := 1,
                                       vx := some (5.568 : ℝ), vy := some 0,
                                       seed := some 0, t := some 0 } } := by
    unfold wanderNode rngHalf
    dsimp only
    simp only [BubbleNode.mk.injEq, Layout2DState.mk.injEq, Option.getD_some]
    have harg1 : (0 : ℝ) + (-1 + 1) * 1.2 = 0 := by norm_num
    have harg2 : (0 : ℝ) + (-1 + 1) * 1.35 = 0 := by norm_num
    rw [harg1, harg2, Real.cos_zero, Real.sin_zero]
    norm_num
  refine ⟨?_, ?_, by norm_num⟩ <;>
  · unfold update2DPhysics
    dsimp only
    rw [List.map_cons, List.map_nil, hint]
    simp only [List.length_cons, List.length_nil, Nat.zero_add]
    rw [pairIndices_one, List.foldl_nil]
    rw [wanderAll_cons_some 1 rngHalf 0 _ [] _ rfl, wanderAll_nil, hwand]
    norm_num

/-! ## The sizeFactor range (for C1) -/

theorem chainRadii_mem_lower (n : ℕ) (sorted : List (ℕ × ℝ)) (gs : ℝ) :
    ∀ x ∈ chainRadii n sorted gs, MIN_RADIUS * 0.7 ≤ x := by
  unfold chainRadii
  cases sorted with
  | nil =>
    intro x hx
    simp only at hx
    rw [List.eq_of_mem_replicate hx]
    rw [MIN_RADIUS]; norm_num
  | cons s0 tail =>
    intro x hx
    simp only at hx
    rcases List.mem_map.mp hx with ⟨y, _, hxy⟩
    rw [← hxy]
    exact le_max_left _ _

theorem buildRadiusAt_lower (coins : List CoinMarket) (options : BuildBubbleOptions)
    (i : ℕ) (hi : i < coins.length) :
    MIN_RADIUS * 0.7 ≤ buildRadiusAt coins options i := by
  unfold buildRadiusAt
  dsimp only
  by_cases hsm : options.sizeMode.getD SizeMode.cap = SizeMode.volume ∨
      options.sizeMode.getD SizeMode.cap = SizeMode.cap
  · rw [buildRadiusByIndex, if_pos hsm]
    dsimp only
    set sorted := rankSorted (computeMetrics coins (options.timeframe.getD Timeframe.h24))
      (options.sizeMode.getD SizeMode.cap) with hsorted
    have hmem := chainRadii_mem_lower coins.length sorted (rankGlobalScale sorted)
    have hlen : (chainRadii coins.length sorted (rankGlobalScale sorted)).length =
      coins.length := chainRadii_length _ _ _
    rw [List.getD_eq_getElem?_getD]
    cases hg : (chainRadii coins.length sorted (rankGlobalScale sorted))[i]? with
    | none =>
      rw [List.getElem?_eq_none_iff, hlen] at hg
      omega
    | some v => simpa using hmem v (List.getElem?_mem hg)
  · rw [buildRadiusByIndex, if_neg hsm]
    have hmode : options.sizeMode.getD SizeMode.cap = SizeMode.percent := by
      cases h : options.sizeMode.getD SizeMode.cap <;> simp_all
    have hb := calcRadius_percent_bounds
      ((computeMetrics coins (options.timeframe.getD Timeframe.h24)).getD i defaultMetric)
      (buildRanges (computeMetrics coins (options.timeframe.getD Timeframe.h24))
        (options.sizeMode.getD SizeMode.cap))
      (by
        rw [show (buildRanges (computeMetrics coins (options.timeframe.getD Timeframe.h24))
          (options.sizeMode.getD SizeMode.cap)).mode =
            some (options.sizeMode.getD SizeMode.cap) from rfl, hmode])
    refine le_trans ?_ hb.1
    rw [MIN_RADIUS]; norm_num

theorem buildRadiusAt_percent_bounds (coins : List CoinMarket)
    (options : BuildBubbleOptions) (i : ℕ)
    (hmode : options.sizeMode.getD SizeMode.cap = SizeMode.percent) :
    MIN_RADIUS ≤ buildRadiusAt coins options i ∧
    buildRadiusAt coins options i ≤ MAX_RADIUS := by
  unfold buildRadiusAt
  dsimp only
  have hnone : buildRadiusByIndex coins.length
      (computeMetrics coins (options.timeframe.getD Timeframe.h24))
      (options.sizeMode.getD SizeMode.cap) = none := by
    rw [buildRadiusByIndex, if_neg]
    rw [hmode]
    intro hcontra
    rcases hcontra with h | h <;> exact SizeMode.noConfusion h
  rw [hnone]
  exact calcRadius_percent_bounds _ _
    (by
      rw [show (buildRanges (computeMetrics coins (options.timeframe.getD Timeframe.h24))
        (options.sizeMode.getD SizeMode.cap)).mode =
          some (options.sizeMode.getD SizeMode.cap) from rfl, hmode])

/-- **C1 (amended).** `sizeFactor = (radius - MIN_RADIUS) / (MAX_RADIUS -
MIN_RADIUS)` is NOT confined to `[0, 1]` in every sizing mode: it lies
in `[0, 1]` in percent mode, while over all sizing modes it lies in the
wider interval `[-0.15, 1.825]` (radii range over
`[MIN_RADIUS * 0.7, MAX_RADIUS * 1.55]`, i.e. `[12.6, 83.7]`). -/
theorem c1_sizeFactor_amended (coins : List CoinMarket) (options : BuildBubbleOptions)
    (rng : ℕ → ℝ) (node : BubbleNode)
    (hmem : node ∈ buildBubbleNodes coins options rng) :
    (-0.15 ≤ node.sizeFactor ∧ node.sizeFactor ≤ 1.825) ∧
    (options.sizeMode.getD SizeMode.cap = SizeMode.percent →
      0 ≤ node.sizeFactor ∧ node.sizeFactor ≤ 1) := by
  obtain ⟨i, hilt, hget⟩ := List.getElem_of_mem hmem
  have hlen := length_buildBubbleNodes coins options rng
  have hne : coins.length ≠ 0 := by omega
  have hi : i < coins.length := by omega
  have hgetD : (buildBubbleNodes coins options rng).getD i defaultNode = node := by
    rw [List.getD_eq_getElem?_getD, List.getElem?_eq_getElem hilt]
    simpa using hget
  have hcv := coreView_getD_of_map_eq _ _ (buildBubbleNodes_coreView coins options rng hne) i
  have hfields := coreView_eq_fields hcv
  have hpre := buildPreNodes_fields coins options i hi
  rw [hgetD] at hfields
  have hsf : node.sizeFactor =
      (buildRadiusAt coins options i - MIN_RADIUS) / jsOr (MAX_RADIUS - MIN_RADIUS) 1 := by
    rw [hfields.2.2, hpre.2.2]
  have hjs : jsOr (MAX_RADIUS - MIN_RADIUS) 1 = 36 := by
    unfold jsOr MAX_RADIUS MIN_RADIUS
    norm_num
  rw [hsf, hjs]
  have hub := (buildRadiusAt_bounds coins options i hi).2
  have hlb := buildRadiusAt_lower coins options i hi
  constructor
  · constructor
    · rw [le_div_iff (by norm_num : (0:ℝ) < 36)]
      rw [MIN_RADIUS] at hlb ⊢
      nlinarith
    · rw [div_le_iff (by norm_num : (0:ℝ) < 36)]
      rw [MAX_RADIUS] at hub
      rw [MIN_RADIUS]
      nlinarith
  · intro hmode
    have hp := buildRadiusAt_percent_bounds coins options i hmode
    constructor
    · rw [le_div_iff (by norm_num : (0:ℝ) < 36)]
      rw [MIN_RADIUS] at hp ⊢
      nlinarith [hp.1]
    · rw [div_le_iff (by norm_num : (0:ℝ) < 36)]
      rw [MAX_RADIUS] at hp
      rw [MIN_RADIUS]
      nlinarith [hp.2]

theorem c1_witness :
    ((-0.15 : ℝ) ≤ ((buildBubbleNodes [coinA] optsPercent rngHalf).getD 0 defaultNode).sizeFactor ∧
      ((buildBubbleNodes [coinA] optsPercent rngHalf).getD 0 defaultNode).sizeFactor ≤ 1.825) ∧
    (optsPercent.sizeMode.getD SizeMode.cap = SizeMode.percent →
      0 ≤ ((buildBubbleNodes [coinA] optsPercent rngHalf).getD 0 defaultNode).sizeFactor ∧
      ((buildBubbleNodes [coinA] optsPercent rngHalf).getD 0 defaultNode).sizeFactor ≤ 1) := by
  have hlen : (buildBubbleNodes [coinA] optsPercent rngHalf).length = 1 := by
    rw [length_buildBubbleNodes]
    rfl
  have hmem : (buildBubbleNodes [coinA] optsPercent rngHalf).getD 0 defaultNode ∈
      buildBubbleNodes [coinA] optsPercent rngHalf := by
    rw [List.getD_eq_getElem?_getD, List.getElem?_eq_getElem (by omega)]
    simp only [Option.getD_some]
    exact List.getElem_mem _
  exact c1_sizeFactor_amended [coinA] optsPercent rngHalf _ hmem

theorem c1_counterexample :
    1 < ((buildBubbleNodes [coinA] optsCap rngHalf).getD 0 defaultNode).sizeFactor := by
  have hne : ([coinA] : List CoinMarket).length ≠ 0 := by norm_num
  have hcv := coreView_getD_of_map_eq _ _
    (buildBubbleNodes_coreView [coinA] optsCap rngHalf hne) 0
  have hfields := coreView_eq_fields hcv
  have hpre := buildPreNodes_fields [coinA] optsCap 0 (by norm_num)
  rw [hfields.2.2, hpre.2.2]
  have hmet : computeMetrics [coinA] Timeframe.h24 =
      [{ coin := coinA, cap := 100, change := 0, volume := 50 }] := by
    unfold computeMetrics selectChangeByTimeframe
    simp [coinA]
  have hsorted : rankSorted [{ coin := coinA, cap := 100, change := 0, volume := 50 }]
      SizeMode.cap = [(0, (100 : ℝ))] := by
    unfold rankSorted rawSizeVal
    have hne2 : ¬(SizeMode.cap = SizeMode.volume) := by decide
    simp [List.insertionSort, List.orderedInsert, List.enum, List.enumFrom, hne2, max_def]
  have hgsval : rankGlobalScale [(0, (100 : ℝ))] = 0.72 := by
    unfold rankGlobalScale
    norm_num [clamp, max_def, min_def]
  have hchain : chainRadii 1 [(0, (100 : ℝ))] 0.72 = [60.264] := by
    unfold chainRadii
    dsimp only
    norm_num [List.replicate, MIN_RADIUS, MAX_RADIUS, max_def]
  have hrad : buildRadiusAt [coinA] optsCap 0 = 60.264 := by
    unfold buildRadiusAt
    dsimp only
    simp only [optsCap, Option.getD_some, Option.getD_none]
    rw [buildRadiusByIndex, if_pos (Or.inr rfl)]
    dsimp only
    rw [show ([coinA] : List CoinMarket).length = 1 from rfl]
    rw [hmet, hsorted, hgsval, hchain]
    rfl
  rw [hrad]
  unfold jsOr MAX_RADIUS MIN_RADIUS
  norm_num
